import Mathlib

/-! # Duet3Expansion: CAN interface (`src/CAN/CanInterface.cpp`) and PWM helpers

A shallow embedding of the CAN communication subsystem of the expansion-board
firmware: the intrusive message queue `CanMessageQueue`, the dispatch function
`CanInterface::ProcessReceivedMessage`, the body of `CanReceiverLoop`, and the
send and fetch entry points.

Pointers to `CanMessageBuffer` are natural-number addresses, `nullptr` is
`none`, and the buffers live in a heap `Nat → CanMessageBuffer`.  Calls to
collaborators whose code is not in `CanInterface.cpp` (the buffer pool, the
CAN peripheral driver, `debugPrintf`, the RTOS) are recorded in a call trace;
what such a call returns is an argument of the embedded function.

The last part embeds two helpers of `src/Hardware/AnalogOut.cpp`,
`ConvertRange` and `ChoosePrescaler`, over a model of the finite `float`s and
over natural numbers reduced modulo 2^32.
-/

namespace Duet3Expansion

/-! ## Data model -/

/-- Stored form of `class CanId` (declared in `CanId.h`, which is not part of
`CanInterface.cpp`): the identifier word kept in a buffer. Its accessors are
fields of `Externals`. -/
structure CanId where
  word : Nat
deriving DecidableEq, Repr

/-- Payload view `msg.sync` of a time-sync frame; `timeSent` is a `uint32_t`. -/
structure CanMessageTimeSync where
  timeSent : Nat
deriving DecidableEq, Repr

/-- Payload view `msg.move` of a movement frame: the execution time stamp
(`uint32_t`) followed by the motion parameters, which the CAN interface only
copies. -/
structure CanMessageMovement where
  whenToExecute : Nat
  motion : List Int
deriving DecidableEq, Repr

/-- The payload `CanMessageBuffer::msg`. The source is a union with the views
`raw`, `sync` and `move`; each view is kept as a field of its own, because
every path of the CAN interface reads only the view of the frame type that it
handles. -/
structure CanMessage where
  raw : List Nat
  sync : CanMessageTimeSync
  move : CanMessageMovement
deriving DecidableEq, Repr

/-- One `CanMessageBuffer`: the intrusive link `next`, the identifier, the
payload length and the payload. -/
structure CanMessageBuffer where
  next : Option Nat
  id : CanId
  dataLength : Nat
  msg : CanMessage
deriving DecidableEq, Repr

/-- The memory holding the message buffers, indexed by address. -/
abbrev Heap := Nat → CanMessageBuffer

/-- The descriptor `struct can_message` handed to the peripheral driver. -/
structure can_message where
  id : Nat
  type : Nat
  data : List Nat
  len : Nat
  fmt : Nat
deriving DecidableEq, Repr

/-- What one `can_async_read` call delivers: its result code, the identifier
and length it stores in the descriptor, and the payload found afterwards at
`msg.data`, which points at the payload of the buffer. -/
structure CanRead where
  rslt : Int
  id : Nat
  len : Nat
  data : CanMessage
deriving DecidableEq, Repr

/-- A call that leaves `CanInterface.cpp`, or the entry into
`ProcessReceivedMessage`, in the order in which the calls are made. -/
inductive Event where
  | Free (buf : Nat)
  | debugPrintf (format : String) (arg : Int)
  | can_async_read (buf : Nat)
  | can_async_write (msg : can_message)
  | ProcessReceivedMessage (buf : Nat)
  | vTaskNotifyGiveFromISR (task : Nat)
deriving DecidableEq, Repr

/-- The declarations that `CanInterface.cpp` takes from headers outside it:
the accessors of `CanId`, the enumerators of `CanMessageType` that label the
cases of the dispatch, and the constants of the peripheral driver. -/
structure Externals where
  MsgType : CanId → Nat
  Dst : CanId → Nat
  IsRequest : CanId → Bool
  GetWholeId : CanId → Nat
  SetReceivedId : CanId → Nat → CanId
  timeSync : Nat
  movement : Nat
  startup : Nat
  controlledStop : Nat
  emergencyStop : Nat
  ERR_NONE : Int
  CAN_TYPE_DATA : Nat
  CAN_FMT_EXTID : Nat

/-- The case labels of a `switch` are pairwise different; here the labels of
the dispatch in `ProcessReceivedMessage`. -/
def Externals.LabelsDistinct (x : Externals) : Prop :=
  [x.timeSync, x.movement, x.startup, x.controlledStop, x.emergencyStop].Nodup

instance (x : Externals) : Decidable x.LabelsDistinct := by
  unfold Externals.LabelsDistinct
  infer_instance

/-! ## 32-bit arithmetic -/

/-- The number of values of a `uint32_t`. -/
def two32 : Nat := 4294967296

/-- Unsigned 32-bit addition. -/
def add32 (a b : Nat) : Nat := (a + b) % two32

/-- Unsigned 32-bit subtraction of the 32-bit values of `a` and `b`. -/
def sub32 (a b : Nat) : Nat := (a % two32 + (two32 - b % two32)) % two32

/-! ## `CanMessageQueue` -/

/-- The class `CanMessageQueue`: head pointer and the pointer to the last
pending message ("only valid when pendingMessages != nullptr"). -/
structure CanMessageQueue where
  pendingMessages : Option Nat
  lastPendingMessage : Option Nat
deriving DecidableEq, Repr

/-- Store `v` in the `next` field of the buffer at address `p`. -/
def setNext (h : Heap) (p : Nat) (v : Option Nat) : Heap :=
  Function.update h p { h p with next := v }

/-- The constructor: `pendingMessages(nullptr)`. The other member is not
initialised by it; the two queues are static objects, so it starts as null. -/
def CanMessageQueue.ctor : CanMessageQueue :=
  { pendingMessages := none, lastPendingMessage := none }

/-- `CanMessageQueue::AddMessage`. The branch for a non-empty queue stores
`buf` in `lastPendingMessage->next` and assigns nothing else. A store through
a null `lastPendingMessage` has no defined effect and is given none here;
`lastPendingMessage_isSome` shows the case does not arise. -/
def CanMessageQueue.AddMessage (q : CanMessageQueue) (h : Heap) (buf : Nat) :
    CanMessageQueue × Heap :=
  let h1 := setNext h buf none
  match q.pendingMessages with
  | none => ({ pendingMessages := some buf, lastPendingMessage := some buf }, h1)
  | some _ =>
    match q.lastPendingMessage with
    | some l => (q, setNext h1 l (some buf))
    | none => (q, h1)

/-- `CanMessageQueue::GetMessage`: the head, or `none` (nullptr) when there
are no messages; the head pointer moves to `buf->next`. -/
def CanMessageQueue.GetMessage (q : CanMessageQueue) (h : Heap) :
    Option Nat × CanMessageQueue :=
  match q.pendingMessages with
  | none => (none, q)
  | some buf => (some buf, { q with pendingMessages := (h buf).next })

/-- A call of a member function of a `CanMessageQueue`. -/
inductive QueueCall where
  | AddMessage (buf : Nat)
  | GetMessage
deriving DecidableEq, Repr

/-- A queue with the buffer memory, and what the `GetMessage` calls made so
far have returned, oldest first. -/
structure QueueRun where
  queue : CanMessageQueue
  heap : Heap
  returned : List (Option Nat)

/-- Make one call on the queue. -/
def QueueRun.call (r : QueueRun) : QueueCall → QueueRun
  | QueueCall.AddMessage buf =>
    { r with queue := (r.queue.AddMessage r.heap buf).1, heap := (r.queue.AddMessage r.heap buf).2 }
  | QueueCall.GetMessage =>
    { r with queue := (r.queue.GetMessage r.heap).2,
             returned := r.returned ++ [(r.queue.GetMessage r.heap).1] }

/-- Make the calls of the list, in order, on a newly constructed queue. -/
def runCalls (calls : List QueueCall) (h : Heap) : QueueRun :=
  calls.foldl QueueRun.call { queue := CanMessageQueue.ctor, heap := h, returned := [] }

/-- The buffers met when following at most `fuel` links from pointer `p`. -/
def chain (h : Heap) : Nat → Option Nat → List Nat
  | 0, _ => []
  | _ + 1, none => []
  | fuel + 1, some b => b :: chain h fuel (h b).next

/-- A buffer whose fields are all zero or null. -/
def zeroBuffer : CanMessageBuffer :=
  { next := none, id := ⟨0⟩, dataLength := 0,
    msg := { raw := [], sync := ⟨0⟩, move := ⟨0, []⟩ } }

/-- A heap of zeroed buffers. -/
def zeroHeap : Heap := fun _ => zeroBuffer

/-! ## The CAN interface -/

/-- The static data of `CanInterface.cpp`, the buffer memory, the clock
offset kept by `StepTimer`, and the trace of calls made so far. -/
structure State where
  heap : Heap
  PendingMoves : CanMessageQueue
  PendingCommands : CanMessageQueue
  boardAddress : Nat
  sendingTaskHandle : Option Nat
  localTimeOffset : Nat
  trace : List Event

/-- The state before `Init`: static objects are constructed or zeroed, the
buffer memory and the clock offset are whatever they are. -/
def State.initial (h : Heap) (offset : Nat) : State :=
  { heap := h, PendingMoves := CanMessageQueue.ctor, PendingCommands := CanMessageQueue.ctor,
    boardAddress := 0, sendingTaskHandle := none, localTimeOffset := offset, trace := [] }

/-- Append one call to the trace. -/
def State.emit (s : State) (e : Event) : State :=
  { s with trace := s.trace ++ [e] }

/-- The call `CanMessageBuffer::Free(buf)`. The pool is a collaborator outside
`CanInterface.cpp`; the call is recorded. -/
def CanMessageBuffer.Free (buf : Nat) (s : State) : State :=
  s.emit (Event.Free buf)

/-- The call `debugPrintf(format, arg)` with its one argument. -/
def debugPrintf (format : String) (arg : Int) (s : State) : State :=
  s.emit (Event.debugPrintf format arg)

/-- Modelled from the spec: `StepTimer::SetLocalTimeOffset`, whose code
(`Movement/StepTimer.h`) is missing. The Clock Offset is "a single signed
duration, process-wide", "mutated only by processing of time-sync frames";
it is kept as its 32-bit pattern. -/
def StepTimer.SetLocalTimeOffset (offset : Nat) (s : State) : State :=
  { s with localTimeOffset := offset % two32 }

/-- Modelled from the spec: `StepTimer::GetLocalTimeOffset`, whose code
(`Movement/StepTimer.h`) is missing: the Clock Offset is "read by
movement-frame processing". -/
def StepTimer.GetLocalTimeOffset (s : State) : Nat :=
  s.localTimeOffset

/-- `CanInterface::Init`, as far as the static data goes: the board address
is stored. -/
def Init (pBoardAddress : Nat) (s : State) : State :=
  { s with boardAddress := pBoardAddress }

/-- `CanInterface::GetCanAddress`. -/
def GetCanAddress (s : State) : Nat :=
  s.boardAddress

/-- `CAN_0_tx_callback`: notify the sending task when a handle is set, then
clear the handle. -/
def CAN_0_tx_callback (s : State) : State :=
  match s.sendingTaskHandle with
  | some task => { s.emit (Event.vTaskNotifyGiveFromISR task) with sendingTaskHandle := none }
  | none => s

/-- Add `offset` to `msg.move.whenToExecute` of the buffer at `buf`. -/
def addToWhenToExecute (h : Heap) (buf : Nat) (offset : Nat) : Heap :=
  Function.update h buf
    { h buf with msg := { (h buf).msg with move :=
        { (h buf).msg.move with
          whenToExecute := add32 (h buf).msg.move.whenToExecute offset } } }

/-- `CanInterface::ProcessReceivedMessage`. `clocks` is what
`StepTimer::GetInterruptClocks()` reads when it is called. The `switch` is a
chain of tests in the order of its case labels. -/
def ProcessReceivedMessage (x : Externals) (clocks : Nat) (buf : Nat) (s0 : State) : State :=
  let s := s0.emit (Event.ProcessReceivedMessage buf)
  let t := x.MsgType (s.heap buf).id
  if t = x.timeSync then
    CanMessageBuffer.Free buf
      (StepTimer.SetLocalTimeOffset (sub32 clocks (s.heap buf).msg.sync.timeSent) s)
  else if t = x.movement then
    let h1 := addToWhenToExecute s.heap buf (StepTimer.GetLocalTimeOffset s)
    let r := s.PendingMoves.AddMessage h1 buf
    { s with heap := r.2, PendingMoves := r.1 }
  else if t = x.startup ∨ t = x.controlledStop ∨ t = x.emergencyStop then
    CanMessageBuffer.Free buf (debugPrintf "Unsupported CAN message type %u\n" t s)
  else if x.Dst (s.heap buf).id = GetCanAddress s ∧ x.IsRequest (s.heap buf).id = true then
    let r := s.PendingCommands.AddMessage s.heap buf
    { s with heap := r.2, PendingCommands := r.1 }
  else
    CanMessageBuffer.Free buf s

/-- The call `can_async_read(&CAN_0, &msg)` with `msg.data` pointing at the
payload of `buf`: afterwards the payload is `rd.data`. -/
def can_async_read (rd : CanRead) (buf : Nat) (s : State) : State :=
  { s.emit (Event.can_async_read buf) with
    heap := Function.update s.heap buf { s.heap buf with msg := rd.data } }

/-- The two statements `buf->dataLength = msg.len;` and
`buf->id.SetReceivedId(msg.id);` after a successful read. -/
def storeReceived (x : Externals) (rd : CanRead) (buf : Nat) (s : State) : State :=
  let b : CanMessageBuffer :=
    { s.heap buf with dataLength := rd.len, id := x.SetReceivedId (s.heap buf).id rd.id }
  { s with heap := Function.update s.heap buf b }

/-- One pass through the body of the endless loop of `CanReceiverLoop`, after
`TaskBase::Take()` has returned. `alloc` is what `CanMessageBuffer::Allocate()`
returns, `rd` what the hardware read delivers. -/
def CanReceiverLoopBody (x : Externals) (alloc : Option Nat) (rd : CanRead) (clocks : Nat)
    (s : State) : State :=
  match alloc with
  | none => s
  | some buf =>
    let s1 := can_async_read rd buf s
    if rd.rslt = x.ERR_NONE then
      ProcessReceivedMessage x clocks buf (storeReceived x rd buf s1)
    else
      CanMessageBuffer.Free buf (debugPrintf "CAN read err %d\n" rd.rslt s1)

/-- `CanInterface::Send`. `_rslt` is the value returned by `can_async_write`,
which `Send` does not look at. -/
def Send (x : Externals) (_rslt : Int) (buf : Nat) (s : State) : State :=
  let msg : can_message :=
    { id := x.GetWholeId (s.heap buf).id, type := x.CAN_TYPE_DATA,
      data := (s.heap buf).msg.raw, len := (s.heap buf).dataLength, fmt := x.CAN_FMT_EXTID }
  CanMessageBuffer.Free buf (s.emit (Event.can_async_write msg))

/-- `CanInterface::GetCanMove`: the returned flag, the output message, and
the state. -/
def GetCanMove (msg : CanMessageMovement) (s : State) : Bool × CanMessageMovement × State :=
  let r := s.PendingMoves.GetMessage s.heap
  match r.1 with
  | some buf =>
    (true, (s.heap buf).msg.move, CanMessageBuffer.Free buf { s with PendingMoves := r.2 })
  | none => (false, msg, { s with PendingMoves := r.2 })

/-- `CanInterface::GetCanCommand`. -/
def GetCanCommand (s : State) : Option Nat × State :=
  let r := s.PendingCommands.GetMessage s.heap
  (r.1, { s with PendingCommands := r.2 })

/-- The results of `n` successive `GetCanCommand` calls and the state left. -/
def getCommands : Nat → State → List (Option Nat) × State
  | 0, s => ([], s)
  | n + 1, s =>
    let r := GetCanCommand s
    let rest := getCommands n r.2
    (r.1 :: rest.1, rest.2)

/-- The calls made between state `s` and the later state `s1`. -/
def since (s s1 : State) : List Event :=
  s1.trace.drop s.trace.length

/-- The calls of the trace that are `Free` calls, as the list of buffers
freed. -/
def frees : List Event → List Nat
  | [] => []
  | Event.Free b :: es => b :: frees es
  | _ :: es => frees es

/-- The `debugPrintf` calls of the trace. -/
def diagnostics : List Event → List (String × Int)
  | [] => []
  | Event.debugPrintf f a :: es => (f, a) :: diagnostics es
  | _ :: es => diagnostics es

/-- The hardware reads of the trace. -/
def reads : List Event → List Nat
  | [] => []
  | Event.can_async_read b :: es => b :: reads es
  | _ :: es => reads es

/-- The hardware writes of the trace. -/
def writes : List Event → List can_message
  | [] => []
  | Event.can_async_write m :: es => m :: writes es
  | _ :: es => writes es

/-- The entries into `ProcessReceivedMessage` of the trace. -/
def dispatches : List Event → List Nat
  | [] => []
  | Event.ProcessReceivedMessage b :: es => b :: dispatches es
  | _ :: es => dispatches es

/-! ## Sample data for evaluating the functions -/

/-- A sample identifier layout: destination in bits 0 to 6, bit 7 set for a
response, message type from bit 8 upwards; sample enumerator values. -/
def sampleExternals : Externals :=
  { MsgType := fun c => c.word / 256
    Dst := fun c => c.word % 128
    IsRequest := fun c => c.word / 128 % 2 == 0
    GetWholeId := fun c => c.word
    SetReceivedId := fun _ raw => ⟨raw⟩
    timeSync := 1, movement := 2, startup := 3, controlledStop := 4, emergencyStop := 5
    ERR_NONE := 0, CAN_TYPE_DATA := 0, CAN_FMT_EXTID := 1 }

/-- The identifier word of a sample frame. -/
def sampleId (type dst : Nat) (request : Bool) : CanId :=
  ⟨type * 256 + (if request then 0 else 128) + dst⟩

/-- A buffer holding a frame with the given identifier, time stamps zero. -/
def sampleBuffer (id : CanId) : CanMessageBuffer :=
  { zeroBuffer with id := id }

/-- A heap in which every buffer is zeroed. Reads below fill the buffers. -/
def sampleHeap : Heap := zeroHeap

/-- A successful hardware read of a request frame of type 9 addressed to
board 7. -/
def sampleCommandRead : CanRead :=
  { rslt := 0, id := (sampleId 9 7 true).word, len := 8, data := zeroBuffer.msg }

/-- Board 7 after `Init` and two receive-loop passes that each read a command
frame, into buffers 1 and 2. -/
def twoCommandsState : State :=
  CanReceiverLoopBody sampleExternals (some 2) sampleCommandRead 0
    (CanReceiverLoopBody sampleExternals (some 1) sampleCommandRead 0
      (Init 7 (State.initial sampleHeap 0)))

/-- The state `twoCommandsState` after one `GetCanCommand` call and a third
receive-loop pass that reads a command frame into buffer 3. -/
def thirdCommandState : State :=
  CanReceiverLoopBody sampleExternals (some 3) sampleCommandRead 0
    (GetCanCommand twoCommandsState).2

/-- A hardware read that fails with result code -21. -/
def sampleFailedRead : CanRead :=
  { rslt := -21, id := 0, len := 0, data := zeroBuffer.msg }

/-- Board 7 after `Init`, with zeroed buffers. -/
def sampleBoard : State :=
  Init 7 (State.initial sampleHeap 0)

/-- A heap whose buffer 1 holds a time-sync frame sent at 4000000000, whose
buffer 4 holds a startup frame, whose buffer 5 holds a response of type 9 to
board 7, and whose other buffers hold a movement frame to be executed at
4294967000. -/
def sampleFrames : Heap := fun a =>
  if a = 1 then
    { sampleBuffer (sampleId 1 7 true) with msg := { zeroBuffer.msg with sync := ⟨4000000000⟩ } }
  else if a = 4 then sampleBuffer (sampleId 3 7 true)
  else if a = 5 then sampleBuffer (sampleId 9 7 false)
  else
    { sampleBuffer (sampleId 2 7 true) with
      msg := { zeroBuffer.msg with move := ⟨4294967000, [10, -3]⟩ } }

/-- Board 7 after `Init`, with the buffers of `sampleFrames`. -/
def sampleFramesBoard : State :=
  Init 7 (State.initial sampleFrames 0)

/-- The task notifications of the trace. -/
def notifications : List Event → List Nat
  | [] => []
  | Event.vTaskNotifyGiveFromISR t :: es => t :: notifications es
  | _ :: es => notifications es

/-- One step of the CAN interface as seen from outside: a call of an entry
point, one pass through the receive loop body, or the transmit-complete
callback, with the values its collaborators hand it. -/
inductive Call where
  | init (pBoardAddress : Nat)
  | send (rslt : Int) (buf : Nat)
  | receive (alloc : Option Nat) (rd : CanRead) (clocks : Nat)
  | getCanMove (msg : CanMessageMovement)
  | getCanCommand
  | txCallback

/-- The state after one step: `Init`, `Send`, a pass through the body of
`CanReceiverLoop`, `GetCanMove`, `GetCanCommand` or `CAN_0_tx_callback`. -/
def Call.run (x : Externals) (s : State) : Call → State
  | Call.init pBoardAddress => Init pBoardAddress s
  | Call.send rslt buf => Send x rslt buf s
  | Call.receive alloc rd clocks => CanReceiverLoopBody x alloc rd clocks s
  | Call.getCanMove msg => (GetCanMove msg s).2.2
  | Call.getCanCommand => (GetCanCommand s).2
  | Call.txCallback => CAN_0_tx_callback s

/-- The state after the steps of the list, in order. -/
def runFrom (x : Externals) (s : State) (calls : List Call) : State :=
  calls.foldl (Call.run x) s

/-- The board of `sampleFramesBoard` after the movement frame of buffer 2 has
been dispatched. -/
def queuedMoveBoard : State :=
  ProcessReceivedMessage sampleExternals 0 2 sampleFramesBoard


/-- The results of `n` successive `GetCanMove` calls, each given the output
message `msg`: the returned flag with the output message afterwards, and the
state left. -/
def getMoves (msg : CanMessageMovement) :
    Nat → State → List (Bool × CanMessageMovement) × State
  | 0, s => ([], s)
  | n + 1, s =>
    let r := GetCanMove msg s
    let rest := getMoves msg n r.2.2
    ((r.1, r.2.1) :: rest.1, rest.2)

/-- A successful hardware read of a movement frame for board 7, to be
executed at 4294967000. -/
def sampleMoveRead : CanRead :=
  { rslt := 0, id := (sampleId 2 7 true).word, len := 8,
    data := { zeroBuffer.msg with move := ⟨4294967000, [10, -3]⟩ } }

/-- A successful hardware read of a time-sync frame sent at 4000000000. -/
def sampleSyncRead : CanRead :=
  { rslt := 0, id := (sampleId 1 7 true).word, len := 4,
    data := { zeroBuffer.msg with sync := ⟨4000000000⟩ } }

/-- Board 7 after `Init` and two receive-loop passes that each read a
movement frame, into buffers 2 and 3. -/
def twoMovesState : State :=
  CanReceiverLoopBody sampleExternals (some 3) sampleMoveRead 0
    (CanReceiverLoopBody sampleExternals (some 2) sampleMoveRead 0 sampleBoard)

/-- The state `twoMovesState` after one `GetCanMove` call and a receive-loop
pass that reads a time-sync frame into buffer 1 while the step clock reads
5. -/
def syncedState : State :=
  CanReceiverLoopBody sampleExternals (some 1) sampleSyncRead 5
    (GetCanMove ⟨0, []⟩ twoMovesState).2.2

/-- The state `syncedState` after a further receive-loop pass that reads a
movement frame into buffer 6. -/
def thirdMoveState : State :=
  CanReceiverLoopBody sampleExternals (some 6) sampleMoveRead 9 syncedState

/-! ## The identifier codec -/

/-- Modelled from the spec: the layout of the wire identifier of `class
CanId`, whose declaration (`CanId.h`) is missing. The identifier is "a
bit-packed value", "decomposed into: destination address, message type" and
"flags distinguishing broadcast addressing, and request vs. response
framing"; the "exact bit widths are a configuration choice fixed at build
time". Each field has a position and a width, and `isRequest` tells which
flag values mark a request. -/
structure CanIdLayout where
  DstAddressShift : Nat
  dstBits : Nat
  MsgTypeShift : Nat
  typeBits : Nat
  flagsShift : Nat
  flagsBits : Nat
  isRequest : Nat → Bool

/-- Modelled from the spec: a layout is bit-packed when no two of its fields
overlap. -/
def CanIdLayout.Valid (l : CanIdLayout) : Prop :=
  (l.DstAddressShift + l.dstBits ≤ l.MsgTypeShift
      ∨ l.MsgTypeShift + l.typeBits ≤ l.DstAddressShift)
  ∧ (l.DstAddressShift + l.dstBits ≤ l.flagsShift
      ∨ l.flagsShift + l.flagsBits ≤ l.DstAddressShift)
  ∧ (l.MsgTypeShift + l.typeBits ≤ l.flagsShift
      ∨ l.flagsShift + l.flagsBits ≤ l.MsgTypeShift)

instance (l : CanIdLayout) : Decidable l.Valid := by
  unfold CanIdLayout.Valid
  infer_instance

/-- The field of `bits` bits at position `shift` of the word `w`. -/
def field (w shift bits : Nat) : Nat :=
  w / 2 ^ shift % 2 ^ bits

/-- Modelled from the spec: "encode(destination, type, flags) → wire
identifier", each value placed at the position of its field. -/
def CanIdLayout.encode (l : CanIdLayout) (dst type flags : Nat) : Nat :=
  dst * 2 ^ l.DstAddressShift + type * 2 ^ l.MsgTypeShift + flags * 2 ^ l.flagsShift

/-- Modelled from the spec: "decode(raw identifier) → {destination, type,
flags}", each value read from its field. -/
def CanIdLayout.decode (l : CanIdLayout) (w : Nat) : Nat × Nat × Nat :=
  (field w l.DstAddressShift l.dstBits, field w l.MsgTypeShift l.typeBits,
    field w l.flagsShift l.flagsBits)

/-- Modelled from the spec: the accessors of `class CanId` (`CanId.h` is
missing) for a layout. `Dst`, `MsgType` and `IsRequest` decode the stored
word; `GetWholeId` hands out the stored word, and `SetReceivedId` stores "the
hardware-reported raw identifier". The other externals are those of `x`. -/
def CanIdLayout.externals (l : CanIdLayout) (x : Externals) : Externals :=
  { x with
    MsgType := fun c => (l.decode c.word).2.1
    Dst := fun c => (l.decode c.word).1
    IsRequest := fun c => l.isRequest (l.decode c.word).2.2
    GetWholeId := fun c => c.word
    SetReceivedId := fun _ raw => ⟨raw⟩ }

/-- The layout that `sampleExternals` uses: destination in bits 0 to 6, one
flag in bit 7 that is clear in a request, a message type of 13 bits from
bit 8. -/
def sampleLayout : CanIdLayout :=
  { DstAddressShift := 0, dstBits := 7, MsgTypeShift := 8, typeBits := 13,
    flagsShift := 7, flagsBits := 1, isRequest := fun f => f == 0 }

/-- A successful hardware read that delivers the identifier of the response
frame of type 9 to board 7. -/
def sampleResponseRead : CanRead :=
  { rslt := 0, id := 2439, len := 8, data := zeroBuffer.msg }


/-! ## `AnalogOut`: single-precision arithmetic -/

/-- A finite `float`: the number `mantissa * 2 ^ exponent`. -/
structure Binary32 where
  mantissa : Int
  exponent : Int
deriving DecidableEq, Repr

/-- The number of binary digits of `n`; `fuel` bounds the digits counted. -/
def bitLength : Nat → Nat → Nat
  | 0, _ => 0
  | fuel + 1, n => if n = 0 then 0 else bitLength fuel (n / 2) + 1

/-- The integer nearest to `n / 2 ^ k`, a tie going to the even one: the
default rounding of the floating-point unit. -/
def roundHalfEven (n k : Nat) : Nat :=
  if 2 * (n % 2 ^ k) < 2 ^ k then n / 2 ^ k
  else if 2 ^ k < 2 * (n % 2 ^ k) then n / 2 ^ k + 1
  else if n / 2 ^ k % 2 = 0 then n / 2 ^ k
  else n / 2 ^ k + 1

/-- The `float` nearest to `m * 2 ^ e`: 24 significant bits, the last of them
not below `2 ^ -149`. Results beyond the largest `float` do not arise from
the operands of `ConvertRange` and are not treated apart. -/
def Binary32.round (m : Int) (e : Int) : Binary32 :=
  let q : Int := max (e + (bitLength (m.natAbs + 1) m.natAbs : Nat) - 24) (-149)
  if q ≤ e then { mantissa := m, exponent := e }
  else { mantissa := m.sign * (roundHalfEven m.natAbs (q - e).toNat : Nat), exponent := q }

/-- The conversion `(float)u` of a `uint32_t`. -/
def Binary32.ofUInt32 (u : Nat) : Binary32 :=
  Binary32.round (u % two32 : Nat) 0

/-- The product `a * b` of two `float`s. -/
def Binary32.mul (a b : Binary32) : Binary32 :=
  Binary32.round (a.mantissa * b.mantissa) (a.exponent + b.exponent)

/-- The call `lrintf(a)`: the integer nearest to `a`, a tie going to the even
one. -/
def lrintf (a : Binary32) : Int :=
  if 0 ≤ a.exponent then a.mantissa * 2 ^ a.exponent.toNat
  else a.mantissa.sign * (roundHalfEven a.mantissa.natAbs (-a.exponent).toNat : Nat)

/-- The conversion of a `long` to `uint32_t`. -/
def toUInt32 (n : Int) : Nat :=
  (n % 4294967296).toNat

/-- The `float` 1.0. -/
def Binary32.one : Binary32 := { mantissa := 1, exponent := 0 }

/-- `AnalogOut::ConvertRange`: `lrintf(f * (float)(top + 1))`, with `top + 1`
computed in `uint32_t`. Its documented contract is
`pre(0.0 <= ulValue; ulValue <= 1.0)` and `post(result <= top)`. -/
def ConvertRange (f : Binary32) (top : Nat) : Nat :=
  toUInt32 (lrintf (Binary32.mul f (Binary32.ofUInt32 (add32 top 1))))


/-! ## `AnalogOut::ChoosePrescaler` -/

/-- The table `PrescalerShifts`: "available prescalers are 1 2 4 8 16 64 256
1024". -/
def PrescalerShifts : List Nat := [0, 1, 2, 3, 4, 6, 8, 10]

/-- The shift `a >> n` of a `uint32_t`: it has a defined result only for a
shift count below 32, the width of the type. -/
def shiftRight32 (a n : Nat) : Option Nat :=
  if n < 32 then some (a >>> n) else none

/-- The loop of `ChoosePrescaler` at index `i`, with the entries `shifts` of
the table still to try, followed by the two statements after the loop: the
returned index and the value stored in `top`. The result is `none` where the
source has no defined behaviour: a shift by 32 bits or more, or a division by
a zero `freq`. -/
def ChoosePrescaler.loop (clock freq counterBits : Nat) : List Nat → Nat → Option (Nat × Nat)
  | [], _ =>
    if counterBits < 32 then some (PrescalerShifts.length - 1, sub32 (1 <<< counterBits) 1)
    else none
  | shift :: shifts, i =>
    match shiftRight32 clock (shift + counterBits) with
    | none => none
    | some shifted =>
      if shifted ≤ freq then
        if freq = 0 then none else some (i, sub32 ((clock >>> shift) / freq) 1)
      else ChoosePrescaler.loop clock freq counterBits shifts (i + 1)

/-- `AnalogOut::ChoosePrescaler`: the returned prescaler register value and
the value stored in `top`. `clock` is the constant `SystemPeripheralClock`, a
`uint32_t` whose declaration is not part of `AnalogOut.cpp`. -/
def ChoosePrescaler (clock freq counterBits : Nat) : Option (Nat × Nat) :=
  ChoosePrescaler.loop clock freq counterBits PrescalerShifts 0

/-! ## Properties of `CanMessageQueue` -/

/-- Whenever the queue is not empty its `lastPendingMessage` is set: one call
keeps this true. -/
theorem QueueRun.call_lastPendingMessage (r : QueueRun) (c : QueueCall)
    (hr : r.queue.pendingMessages.isSome = true → r.queue.lastPendingMessage.isSome = true) :
    (r.call c).queue.pendingMessages.isSome = true →
      (r.call c).queue.lastPendingMessage.isSome = true := by
  cases c with
  | AddMessage buf =>
    cases hp : r.queue.pendingMessages with
    | none => simp [QueueRun.call, CanMessageQueue.AddMessage, hp]
    | some b =>
      have hl := hr (by simp [hp])
      cases hq : r.queue.lastPendingMessage with
      | none => simp [hq] at hl
      | some l => simp [QueueRun.call, CanMessageQueue.AddMessage, hp, hq]
  | GetMessage =>
    cases hp : r.queue.pendingMessages with
    | none => simp [QueueRun.call, CanMessageQueue.GetMessage, hp]
    | some b =>
      intro _
      simpa [QueueRun.call, CanMessageQueue.GetMessage, hp] using hr (by simp [hp])

/-- The same over a list of calls from any start that has the property. -/
theorem foldl_call_lastPendingMessage (calls : List QueueCall) (r : QueueRun)
    (hr : r.queue.pendingMessages.isSome = true → r.queue.lastPendingMessage.isSome = true) :
    (calls.foldl QueueRun.call r).queue.pendingMessages.isSome = true →
      (calls.foldl QueueRun.call r).queue.lastPendingMessage.isSome = true := by
  induction calls generalizing r with
  | nil => simpa using hr
  | cons c cs ih => exact ih (r.call c) (QueueRun.call_lastPendingMessage r c hr)

/-- After any calls on a newly constructed queue, a non-empty queue has a
non-null `lastPendingMessage`: `AddMessage` never stores through a null
pointer. -/
theorem lastPendingMessage_isSome (calls : List QueueCall) (h : Heap) :
    (runCalls calls h).queue.pendingMessages.isSome = true →
      (runCalls calls h).queue.lastPendingMessage.isSome = true :=
  foldl_call_lastPendingMessage calls _ (by simp [CanMessageQueue.ctor])

/-- While the queue is not empty, `AddMessage` calls leave the queue object
as it is and return nothing. -/
theorem foldl_AddMessage_queue (bufs : List Nat) (r : QueueRun) (a l : Nat)
    (hq : r.queue = { pendingMessages := some a, lastPendingMessage := some l }) :
    ((bufs.map QueueCall.AddMessage).foldl QueueRun.call r).queue = r.queue
    ∧ ((bufs.map QueueCall.AddMessage).foldl QueueRun.call r).returned = r.returned := by
  induction bufs generalizing r with
  | nil => exact ⟨rfl, rfl⟩
  | cons b bs ih =>
    have h1 : (r.call (QueueCall.AddMessage b)).queue = r.queue := by
      simp [QueueRun.call, CanMessageQueue.AddMessage, hq]
    have h2 : (r.call (QueueCall.AddMessage b)).returned = r.returned := by
      simp [QueueRun.call]
    have := ih (r.call (QueueCall.AddMessage b)) (h1.trans hq)
    simp only [List.map_cons, List.foldl_cons]
    exact ⟨this.1.trans h1, this.2.trans h2⟩

/-- On an empty queue every `GetMessage` call returns nullptr. -/
theorem foldl_GetMessage_empty (k : Nat) (r : QueueRun)
    (hq : r.queue.pendingMessages = none) :
    ((List.replicate k QueueCall.GetMessage).foldl QueueRun.call r).returned
      = r.returned ++ List.replicate k none := by
  induction k generalizing r with
  | zero => simp
  | succ k ih =>
    have h1 : (r.call QueueCall.GetMessage).queue.pendingMessages = none := by
      simp [QueueRun.call, CanMessageQueue.GetMessage, hq]
    have h2 : (r.call QueueCall.GetMessage).returned = r.returned ++ [none] := by
      simp [QueueRun.call, CanMessageQueue.GetMessage, hq]
    simp only [List.replicate_succ, List.foldl_cons]
    rw [ih _ h1, h2]
    simp

/-- What a queue returns after any number of appends: when buffer `a` is
appended to a new queue, then the buffers of `mid`, then a buffer `b` other
than `a`, the `GetMessage` calls return `a`, then `b`, then nullptr. The
buffers of `mid` are never returned. -/
theorem runCalls_returns_first_and_last (h : Heap) (a b : Nat) (mid : List Nat) (k : Nat)
    (hab : a ≠ b) :
    (runCalls ((a :: (mid ++ [b])).map QueueCall.AddMessage
        ++ List.replicate (k + 2) QueueCall.GetMessage) h).returned
      = some a :: some b :: List.replicate k none := by
  unfold runCalls
  simp only [List.map_cons, List.map_append, List.map_nil, List.foldl_append, List.foldl_cons,
    List.foldl_nil, List.replicate_succ]
  have h0 : (QueueRun.call { queue := CanMessageQueue.ctor, heap := h, returned := [] }
      (QueueCall.AddMessage a)).queue
      = { pendingMessages := some a, lastPendingMessage := some a } := by
    simp [QueueRun.call, CanMessageQueue.AddMessage, CanMessageQueue.ctor]
  have h0r : (QueueRun.call { queue := CanMessageQueue.ctor, heap := h, returned := [] }
      (QueueCall.AddMessage a)).returned = [] := by
    simp [QueueRun.call]
  obtain ⟨hq, hr⟩ := foldl_AddMessage_queue mid _ a a h0
  rw [h0] at hq
  rw [h0r] at hr
  generalize (mid.map QueueCall.AddMessage).foldl QueueRun.call
    (QueueRun.call { queue := CanMessageQueue.ctor, heap := h, returned := [] }
      (QueueCall.AddMessage a)) = r at hq hr
  have hba : ¬ b = a := fun e => hab e.symm
  rw [foldl_GetMessage_empty]
  · simp [QueueRun.call, CanMessageQueue.AddMessage, CanMessageQueue.GetMessage, hq, hr, setNext]
  · simp [QueueRun.call, CanMessageQueue.AddMessage, CanMessageQueue.GetMessage, hq, setNext,
      Function.update, hba, hab]

/-- C1, evaluated where it fails: buffers 1, 2, 3 are appended to a new queue
in this order; four `GetMessage` calls then return 1, 3, nullptr, nullptr.
The second buffer is never returned, because `AddMessage` links every later
buffer behind the first one. -/
theorem C1_three_appends_return_first_and_third :
    (runCalls ([QueueCall.AddMessage 1, QueueCall.AddMessage 2, QueueCall.AddMessage 3]
        ++ List.replicate 4 QueueCall.GetMessage) zeroHeap).returned
      = [some 1, some 3, none, none] := by
  decide

/-- C2, evaluated where it fails: after `AddMessage(1)`, `AddMessage(2)`,
`GetMessage()` (which returns 1) and `AddMessage(3)`, the queue still points
at the returned buffer 1 through `lastPendingMessage`, the last `AddMessage`
has overwritten `next` of buffer 1 (it held 2, it now holds 3), and of the
two buffers appended and not yet returned only 2 can be reached from the
head: buffer 3 is lost. -/
theorem C2_returned_buffer_written_and_append_lost :
    (runCalls [QueueCall.AddMessage 1, QueueCall.AddMessage 2, QueueCall.GetMessage]
        zeroHeap).returned = [some 1]
    ∧ (runCalls [QueueCall.AddMessage 1, QueueCall.AddMessage 2, QueueCall.GetMessage]
        zeroHeap).queue.lastPendingMessage = some 1
    ∧ ((runCalls [QueueCall.AddMessage 1, QueueCall.AddMessage 2, QueueCall.GetMessage]
        zeroHeap).heap 1).next = some 2
    ∧ ((runCalls [QueueCall.AddMessage 1, QueueCall.AddMessage 2, QueueCall.GetMessage,
        QueueCall.AddMessage 3] zeroHeap).heap 1).next = some 3
    ∧ chain (runCalls [QueueCall.AddMessage 1, QueueCall.AddMessage 2, QueueCall.GetMessage,
          QueueCall.AddMessage 3] zeroHeap).heap 40
        (runCalls [QueueCall.AddMessage 1, QueueCall.AddMessage 2, QueueCall.GetMessage,
          QueueCall.AddMessage 3] zeroHeap).queue.pendingMessages = [2] := by
  decide

/-! ## Helper lemmas -/

/-- Two of the case labels at different positions differ. -/
theorem Externals.LabelsDistinct.ne (x : Externals) (h : x.LabelsDistinct) :
    x.timeSync ≠ x.movement ∧ x.timeSync ≠ x.startup ∧ x.timeSync ≠ x.controlledStop
      ∧ x.timeSync ≠ x.emergencyStop ∧ x.movement ≠ x.startup
      ∧ x.movement ≠ x.controlledStop ∧ x.movement ≠ x.emergencyStop := by
  unfold Externals.LabelsDistinct at h
  simp only [List.nodup_cons, List.mem_cons, List.mem_singleton, not_or] at h
  obtain ⟨⟨h1, h2, h3, h4⟩, ⟨h5, h6, h7⟩, _⟩ := h
  exact ⟨h1, h2, h3, h4.1, h5, h6, h7.1⟩

/-- Unsigned 32-bit subtraction is subtraction of integers modulo 2^32. -/
theorem sub32_eq (a b : Nat) :
    ((sub32 a b : Nat) : Int) = ((a : Int) - (b : Int)) % 4294967296 := by
  unfold sub32
  unfold two32 at *
  omega

/-- Adding the 32-bit difference is adding the difference of integers modulo
2^32. -/
theorem add32_sub32_eq (c a b : Nat) :
    ((add32 c (sub32 a b) : Nat) : Int)
      = ((c : Int) + ((a : Int) - (b : Int))) % 4294967296 := by
  unfold add32 sub32
  unfold two32 at *
  omega

/-- The calls made since `s` when the trace has grown by `es`. -/
theorem since_append (s s1 : State) (es : List Event) (h : s1.trace = s.trace ++ es) :
    since s s1 = es := by
  simp [since, h]

/-- With an empty command queue every `GetCanCommand` call returns nullptr. -/
theorem getCommands_of_empty (n : Nat) (s : State)
    (h : s.PendingCommands.pendingMessages = none) :
    (getCommands n s).1 = List.replicate n none := by
  induction n generalizing s with
  | zero => rfl
  | succ n ih =>
    have h1 : (GetCanCommand s).1 = none := by
      simp [GetCanCommand, CanMessageQueue.GetMessage, h]
    have h2 : (GetCanCommand s).2.PendingCommands.pendingMessages = none := by
      simp [GetCanCommand, CanMessageQueue.GetMessage, h]
    simp [getCommands, h1, ih _ h2, List.replicate_succ]

/-- What `GetCanCommand` calls return depends only on the command queue and
on the heap. -/
theorem getCommands_congr (n : Nat) (s s1 : State) (hh : s1.heap = s.heap)
    (hq : s1.PendingCommands = s.PendingCommands) :
    (getCommands n s1).1 = (getCommands n s).1 := by
  induction n generalizing s s1 with
  | zero => rfl
  | succ n ih =>
    have h1 : (GetCanCommand s1).1 = (GetCanCommand s).1 := by
      simp [GetCanCommand, hh, hq]
    have h2 : (getCommands n (GetCanCommand s1).2).1 = (getCommands n (GetCanCommand s).2).1 :=
      ih _ _ (by simp [GetCanCommand, hh]) (by simp [GetCanCommand, hh, hq])
    simp [getCommands, h1, h2]

/-- The trace after `ProcessReceivedMessage`: the old trace, the entry into
the function, and calls that are not entries into it. -/
theorem ProcessReceivedMessage_trace (x : Externals) (clocks buf : Nat) (s : State) :
    ∃ es, (ProcessReceivedMessage x clocks buf s).trace
        = s.trace ++ Event.ProcessReceivedMessage buf :: es ∧ dispatches es = [] := by
  unfold ProcessReceivedMessage
  simp only []
  split_ifs
  · exact ⟨[Event.Free buf], by
      simp [State.emit, CanMessageBuffer.Free, StepTimer.SetLocalTimeOffset], rfl⟩
  · exact ⟨[], by simp [State.emit], rfl⟩
  · exact ⟨[Event.debugPrintf "Unsupported CAN message type %u\n"
        (x.MsgType (s.heap buf).id), Event.Free buf], by
      simp [State.emit, CanMessageBuffer.Free, debugPrintf], rfl⟩
  · exact ⟨[], by simp [State.emit], rfl⟩
  · exact ⟨[Event.Free buf], by simp [State.emit, CanMessageBuffer.Free], rfl⟩

/-! ## Properties of the dispatch and of the receive loop -/

/-- The arithmetic of the clock offset: when a time-sync frame with
`timeSent = T` is processed while the step clock reads `L`, the local time
offset becomes `L - T` modulo 2^32; a movement
frame with `whenToExecute = T2` processed in any later state `s2` that still
has this offset carries `whenToExecute = T2 + (L - T)` modulo 2^32 when it is
handed to `PendingMoves.AddMessage`, which makes it the head of an empty
movement queue and otherwise stores it in `lastPendingMessage->next`. -/
theorem time_sync_offset_added_to_movement (x : Externals) (s s2 : State)
    (bufS bufM L T T2 L2 : Nat)
    (hx : x.LabelsDistinct)
    (hsync : x.MsgType (s.heap bufS).id = x.timeSync)
    (hsent : (s.heap bufS).msg.sync.timeSent = T)
    (hoff : s2.localTimeOffset = (ProcessReceivedMessage x L bufS s).localTimeOffset)
    (hmove : x.MsgType (s2.heap bufM).id = x.movement)
    (hwhen : (s2.heap bufM).msg.move.whenToExecute = T2) :
    (((ProcessReceivedMessage x L bufS s).localTimeOffset : Nat) : Int)
        = ((L : Int) - (T : Int)) % 4294967296
    ∧ ((((ProcessReceivedMessage x L2 bufM s2).heap bufM).msg.move.whenToExecute : Nat) : Int)
        = ((T2 : Int) + ((L : Int) - (T : Int))) % 4294967296
    ∧ (s2.PendingMoves.pendingMessages = none →
        (ProcessReceivedMessage x L2 bufM s2).PendingMoves.pendingMessages = some bufM
        ∧ ∀ m, (GetCanMove m (ProcessReceivedMessage x L2 bufM s2)).1 = true
          ∧ (((GetCanMove m (ProcessReceivedMessage x L2 bufM s2)).2.1.whenToExecute : Nat) : Int)
              = ((T2 : Int) + ((L : Int) - (T : Int))) % 4294967296)
    ∧ (∀ l, s2.PendingMoves.pendingMessages ≠ none →
        s2.PendingMoves.lastPendingMessage = some l →
        ((ProcessReceivedMessage x L2 bufM s2).heap l).next = some bufM) := by
  have hne := (Externals.LabelsDistinct.ne x hx).1
  have h1 : (ProcessReceivedMessage x L bufS s).localTimeOffset = sub32 L T := by
    have : sub32 L T % two32 = sub32 L T := Nat.mod_eq_of_lt (by
      unfold sub32; exact Nat.mod_lt _ (by unfold two32; omega))
    simp [ProcessReceivedMessage, State.emit, hsync, hsent, CanMessageBuffer.Free,
      StepTimer.SetLocalTimeOffset, this]
  have hm : ¬ x.movement = x.timeSync := fun h => hne h.symm
  rw [h1] at hoff
  have hwhenInt :
      ((((ProcessReceivedMessage x L2 bufM s2).heap bufM).msg.move.whenToExecute : Nat) : Int)
        = ((T2 : Int) + ((L : Int) - (T : Int))) % 4294967296 := by
    have : ((ProcessReceivedMessage x L2 bufM s2).heap bufM).msg.move.whenToExecute
        = add32 T2 (sub32 L T) := by
      cases hp : s2.PendingMoves.pendingMessages with
      | none =>
        simp [ProcessReceivedMessage, State.emit, hmove, hm, hwhen, hoff,
          StepTimer.GetLocalTimeOffset, CanMessageQueue.AddMessage, hp, setNext,
          addToWhenToExecute]
      | some b =>
        cases hq : s2.PendingMoves.lastPendingMessage with
        | none =>
          simp [ProcessReceivedMessage, State.emit, hmove, hm, hwhen, hoff,
            StepTimer.GetLocalTimeOffset, CanMessageQueue.AddMessage, hp, hq, setNext,
            addToWhenToExecute]
        | some l =>
          by_cases hl : bufM = l
          · subst hl
            simp [ProcessReceivedMessage, State.emit, hmove, hm, hwhen, hoff,
              StepTimer.GetLocalTimeOffset, CanMessageQueue.AddMessage, hp, hq, setNext,
              addToWhenToExecute]
          · simp [ProcessReceivedMessage, State.emit, hmove, hm, hwhen, hoff,
              StepTimer.GetLocalTimeOffset, CanMessageQueue.AddMessage, hp, hq, setNext,
              addToWhenToExecute, Function.update, hl]
    rw [this]
    exact add32_sub32_eq T2 L T
  refine ⟨by rw [h1]; exact sub32_eq L T, hwhenInt, ?_, ?_⟩
  · intro hp
    have hhead : (ProcessReceivedMessage x L2 bufM s2).PendingMoves.pendingMessages
        = some bufM := by
      simp [ProcessReceivedMessage, State.emit, hmove, hm, CanMessageQueue.AddMessage, hp]
    refine ⟨hhead, fun m => ?_⟩
    simp only [GetCanMove, CanMessageQueue.GetMessage, hhead]
    exact ⟨trivial, hwhenInt⟩
  · intro l hp hq
    cases hp2 : s2.PendingMoves.pendingMessages with
    | none => exact absurd hp2 hp
    | some b =>
      simp [ProcessReceivedMessage, State.emit, hmove, hm, CanMessageQueue.AddMessage, hp2, hq,
        setNext]

/-- C4, evaluated where it fails: board 7 receives two command frames
(requests of type 9 addressed to board 7) into buffers 1 and 2, the consumer
takes buffer 1 with `GetCanCommand`, then a third such frame is received into
buffer 3. `ProcessReceivedMessage` is entered for buffer 3 and frees nothing,
yet no number of `GetCanCommand` calls returns buffer 3: the first call
returns buffer 2 and all later ones return nullptr. -/
theorem C4_third_command_never_returned :
    (GetCanCommand twoCommandsState).1 = some 1
    ∧ sampleExternals.MsgType (thirdCommandState.heap 3).id = 9
    ∧ sampleExternals.Dst (thirdCommandState.heap 3).id = GetCanAddress thirdCommandState
    ∧ sampleExternals.IsRequest (thirdCommandState.heap 3).id = true
    ∧ dispatches (since (GetCanCommand twoCommandsState).2 thirdCommandState) = [3]
    ∧ frees thirdCommandState.trace = []
    ∧ (thirdCommandState.heap 1).next = some 3
    ∧ ∀ n, (getCommands (n + 1) thirdCommandState).1 = some 2 :: List.replicate n none := by
  refine ⟨by decide, by decide, by decide, by decide, by decide, by decide, by decide, ?_⟩
  intro n
  have h1 : (GetCanCommand thirdCommandState).1 = some 2 := by decide
  have h2 : (GetCanCommand thirdCommandState).2.PendingCommands.pendingMessages = none := by
    decide
  simp [getCommands, h1, getCommands_of_empty n _ h2]

/-- C5: a frame whose type is neither time-sync nor movement, and which is not
both addressed to this board and a request, is freed exactly once by
`ProcessReceivedMessage`; no other buffer is freed, both queues and the whole
buffer memory stay as they were, and any number of `GetCanCommand` calls
returns afterwards exactly what it would have returned without the frame. -/
theorem C5_unwanted_frame_freed_once (x : Externals) (clocks buf : Nat) (s : State)
    (hsync : x.MsgType (s.heap buf).id ≠ x.timeSync)
    (hmove : x.MsgType (s.heap buf).id ≠ x.movement)
    (hnot : ¬ (x.Dst (s.heap buf).id = GetCanAddress s ∧ x.IsRequest (s.heap buf).id = true)) :
    frees (since s (ProcessReceivedMessage x clocks buf s)) = [buf]
    ∧ (ProcessReceivedMessage x clocks buf s).PendingCommands = s.PendingCommands
    ∧ (ProcessReceivedMessage x clocks buf s).PendingMoves = s.PendingMoves
    ∧ (ProcessReceivedMessage x clocks buf s).heap = s.heap
    ∧ ∀ n, (getCommands n (ProcessReceivedMessage x clocks buf s)).1 = (getCommands n s).1 := by
  have hnot2 : ¬ (x.Dst (s.heap buf).id = s.boardAddress ∧ x.IsRequest (s.heap buf).id = true) :=
    hnot
  by_cases hu : x.MsgType (s.heap buf).id = x.startup
      ∨ x.MsgType (s.heap buf).id = x.controlledStop
      ∨ x.MsgType (s.heap buf).id = x.emergencyStop
  · have ht : (ProcessReceivedMessage x clocks buf s).trace = s.trace ++
        [Event.ProcessReceivedMessage buf,
         Event.debugPrintf "Unsupported CAN message type %u\n" (x.MsgType (s.heap buf).id),
         Event.Free buf] := by
      simp [ProcessReceivedMessage, State.emit, hsync, hmove, hu, CanMessageBuffer.Free,
        debugPrintf]
    have hh : (ProcessReceivedMessage x clocks buf s).heap = s.heap := by
      simp [ProcessReceivedMessage, State.emit, hsync, hmove, hu, CanMessageBuffer.Free,
        debugPrintf]
    have hq : (ProcessReceivedMessage x clocks buf s).PendingCommands = s.PendingCommands := by
      simp [ProcessReceivedMessage, State.emit, hsync, hmove, hu, CanMessageBuffer.Free,
        debugPrintf]
    refine ⟨by rw [since_append s _ _ ht]; rfl, hq, ?_, hh, fun n => getCommands_congr n _ _ hh hq⟩
    simp [ProcessReceivedMessage, State.emit, hsync, hmove, hu, CanMessageBuffer.Free,
      debugPrintf]
  · have ht : (ProcessReceivedMessage x clocks buf s).trace = s.trace ++
        [Event.ProcessReceivedMessage buf, Event.Free buf] := by
      simp [ProcessReceivedMessage, State.emit, hsync, hmove, hu, hnot2, GetCanAddress,
        CanMessageBuffer.Free]
    have hh : (ProcessReceivedMessage x clocks buf s).heap = s.heap := by
      simp [ProcessReceivedMessage, State.emit, hsync, hmove, hu, hnot2, GetCanAddress,
        CanMessageBuffer.Free]
    have hq : (ProcessReceivedMessage x clocks buf s).PendingCommands = s.PendingCommands := by
      simp [ProcessReceivedMessage, State.emit, hsync, hmove, hu, hnot2, GetCanAddress,
        CanMessageBuffer.Free]
    refine ⟨by rw [since_append s _ _ ht]; rfl, hq, ?_, hh, fun n => getCommands_congr n _ _ hh hq⟩
    simp [ProcessReceivedMessage, State.emit, hsync, hmove, hu, hnot2, GetCanAddress,
      CanMessageBuffer.Free]

/-- C6: whatever `can_async_write` returns, `Send` makes exactly one hardware
write, whose descriptor carries the whole identifier, the raw payload and the
`dataLength` of the buffer, then frees that buffer exactly once and frees no
other; both queues, the buffer memory and the clock offset stay as they
were. -/
theorem C6_send_writes_once_frees_once (x : Externals) (rslt : Int) (buf : Nat) (s : State) :
    since s (Send x rslt buf s)
      = [Event.can_async_write
          { id := x.GetWholeId (s.heap buf).id, type := x.CAN_TYPE_DATA,
            data := (s.heap buf).msg.raw, len := (s.heap buf).dataLength,
            fmt := x.CAN_FMT_EXTID },
         Event.Free buf]
    ∧ writes (since s (Send x rslt buf s))
      = [{ id := x.GetWholeId (s.heap buf).id, type := x.CAN_TYPE_DATA,
           data := (s.heap buf).msg.raw, len := (s.heap buf).dataLength,
           fmt := x.CAN_FMT_EXTID }]
    ∧ frees (since s (Send x rslt buf s)) = [buf]
    ∧ (Send x rslt buf s).PendingMoves = s.PendingMoves
    ∧ (Send x rslt buf s).PendingCommands = s.PendingCommands
    ∧ (Send x rslt buf s).heap = s.heap
    ∧ (Send x rslt buf s).localTimeOffset = s.localTimeOffset := by
  have ht : (Send x rslt buf s).trace = s.trace ++
      [Event.can_async_write
          { id := x.GetWholeId (s.heap buf).id, type := x.CAN_TYPE_DATA,
            data := (s.heap buf).msg.raw, len := (s.heap buf).dataLength,
            fmt := x.CAN_FMT_EXTID },
       Event.Free buf] := by
    simp [Send, State.emit, CanMessageBuffer.Free]
  rw [since_append s _ _ ht]
  exact ⟨rfl, rfl, rfl, rfl, rfl, rfl, rfl⟩

/-- C7: for a frame of type startup, controlled-stop or emergency-stop,
whatever its destination and request flag, `ProcessReceivedMessage` makes
exactly one `debugPrintf` call, whose argument is the number of the message
type, frees the buffer exactly once and no other buffer, and leaves both
queues and the buffer memory as they were. -/
theorem C7_unsupported_type_reported_and_freed (x : Externals) (clocks buf : Nat) (s : State)
    (hx : x.LabelsDistinct)
    (htype : x.MsgType (s.heap buf).id = x.startup
      ∨ x.MsgType (s.heap buf).id = x.controlledStop
      ∨ x.MsgType (s.heap buf).id = x.emergencyStop) :
    diagnostics (since s (ProcessReceivedMessage x clocks buf s))
      = [("Unsupported CAN message type %u\n", ((x.MsgType (s.heap buf).id : Nat) : Int))]
    ∧ frees (since s (ProcessReceivedMessage x clocks buf s)) = [buf]
    ∧ (ProcessReceivedMessage x clocks buf s).PendingMoves = s.PendingMoves
    ∧ (ProcessReceivedMessage x clocks buf s).PendingCommands = s.PendingCommands
    ∧ (ProcessReceivedMessage x clocks buf s).heap = s.heap := by
  obtain ⟨_, h2, h3, h4, h5, h6, h7⟩ := Externals.LabelsDistinct.ne x hx
  have hsync : x.MsgType (s.heap buf).id ≠ x.timeSync := by
    rcases htype with h | h | h <;> rw [h] <;> intro e
    · exact h2 e.symm
    · exact h3 e.symm
    · exact h4 e.symm
  have hmove : x.MsgType (s.heap buf).id ≠ x.movement := by
    rcases htype with h | h | h <;> rw [h] <;> intro e
    · exact h5 e.symm
    · exact h6 e.symm
    · exact h7 e.symm
  have ht : (ProcessReceivedMessage x clocks buf s).trace = s.trace ++
      [Event.ProcessReceivedMessage buf,
       Event.debugPrintf "Unsupported CAN message type %u\n" (x.MsgType (s.heap buf).id),
       Event.Free buf] := by
    simp [ProcessReceivedMessage, State.emit, hsync, hmove, htype, CanMessageBuffer.Free,
      debugPrintf]
  rw [since_append s _ _ ht]
  refine ⟨rfl, rfl, ?_, ?_, ?_⟩ <;>
    simp [ProcessReceivedMessage, State.emit, hsync, hmove, htype, CanMessageBuffer.Free,
      debugPrintf]

/-- C8: when `Allocate` returns nullptr, the pass through the loop body makes
no hardware read and no `Free` call, and leaves both queues, the buffer
memory and the clock offset as they were. -/
theorem C8_no_buffer_no_read_no_free (x : Externals) (rd : CanRead) (clocks : Nat) (s : State) :
    reads (since s (CanReceiverLoopBody x none rd clocks s)) = []
    ∧ frees (since s (CanReceiverLoopBody x none rd clocks s)) = []
    ∧ (CanReceiverLoopBody x none rd clocks s).PendingMoves = s.PendingMoves
    ∧ (CanReceiverLoopBody x none rd clocks s).PendingCommands = s.PendingCommands
    ∧ (CanReceiverLoopBody x none rd clocks s).heap = s.heap
    ∧ (CanReceiverLoopBody x none rd clocks s).localTimeOffset = s.localTimeOffset := by
  have ht : (CanReceiverLoopBody x none rd clocks s).trace = s.trace ++ [] := by
    simp [CanReceiverLoopBody]
  rw [since_append s _ _ ht]
  exact ⟨rfl, rfl, rfl, rfl, rfl, rfl⟩

/-- C9 fails on the code: on board 7, a pass through the loop body in which
`Allocate` returns nullptr makes no `debugPrintf` call. -/
theorem C9_no_diagnostic_example :
    ¬ (diagnostics (since sampleBoard
        (CanReceiverLoopBody sampleExternals none sampleCommandRead 0 sampleBoard)) ≠ []) := by
  decide

/-- C9 as amended: when `Allocate` returns nullptr, the pass through the loop
body emits no diagnostic; it makes no call at all, the trace is the one it
started with. -/
theorem C9_no_buffer_is_silent (x : Externals) (rd : CanRead) (clocks : Nat) (s : State) :
    diagnostics (since s (CanReceiverLoopBody x none rd clocks s)) = []
    ∧ (CanReceiverLoopBody x none rd clocks s).trace = s.trace := by
  have ht : (CanReceiverLoopBody x none rd clocks s).trace = s.trace ++ [] := by
    simp [CanReceiverLoopBody]
  rw [since_append s _ _ ht]
  exact ⟨rfl, rfl⟩

/-- C10: with a buffer allocated, a read result other than `ERR_NONE` makes
the pass free that buffer exactly once, emit one diagnostic whose argument is
the result code, never enter `ProcessReceivedMessage`, and leave both queues,
every link, every other buffer and the clock offset as they were; a read
result `ERR_NONE` makes the pass store the length and the identifier of the
hardware message in the buffer, free nothing itself before the dispatch, and
enter `ProcessReceivedMessage` for that buffer exactly once, the state it
leaves being the one the dispatch returns. -/
theorem C10_read_result_selects_free_or_dispatch (x : Externals) (rd : CanRead)
    (clocks buf : Nat) (s : State) :
    (rd.rslt ≠ x.ERR_NONE →
      frees (since s (CanReceiverLoopBody x (some buf) rd clocks s)) = [buf]
      ∧ diagnostics (since s (CanReceiverLoopBody x (some buf) rd clocks s))
          = [("CAN read err %d\n", rd.rslt)]
      ∧ dispatches (since s (CanReceiverLoopBody x (some buf) rd clocks s)) = []
      ∧ (CanReceiverLoopBody x (some buf) rd clocks s).PendingMoves = s.PendingMoves
      ∧ (CanReceiverLoopBody x (some buf) rd clocks s).PendingCommands = s.PendingCommands
      ∧ (∀ a, ((CanReceiverLoopBody x (some buf) rd clocks s).heap a).next = (s.heap a).next)
      ∧ (∀ a, a ≠ buf → (CanReceiverLoopBody x (some buf) rd clocks s).heap a = s.heap a)
      ∧ (CanReceiverLoopBody x (some buf) rd clocks s).localTimeOffset = s.localTimeOffset)
    ∧ (rd.rslt = x.ERR_NONE →
      CanReceiverLoopBody x (some buf) rd clocks s
          = ProcessReceivedMessage x clocks buf (storeReceived x rd buf (can_async_read rd buf s))
      ∧ ((storeReceived x rd buf (can_async_read rd buf s)).heap buf).dataLength = rd.len
      ∧ ((storeReceived x rd buf (can_async_read rd buf s)).heap buf).id
          = x.SetReceivedId (s.heap buf).id rd.id
      ∧ frees (since s (storeReceived x rd buf (can_async_read rd buf s))) = []
      ∧ dispatches (since s (CanReceiverLoopBody x (some buf) rd clocks s)) = [buf]) := by
  constructor
  · intro herr
    have ht : (CanReceiverLoopBody x (some buf) rd clocks s).trace = s.trace ++
        [Event.can_async_read buf, Event.debugPrintf "CAN read err %d\n" rd.rslt,
          Event.Free buf] := by
      simp [CanReceiverLoopBody, herr, can_async_read, State.emit, CanMessageBuffer.Free,
        debugPrintf]
    have hh : (CanReceiverLoopBody x (some buf) rd clocks s).heap
        = Function.update s.heap buf { s.heap buf with msg := rd.data } := by
      simp [CanReceiverLoopBody, herr, can_async_read, State.emit, CanMessageBuffer.Free,
        debugPrintf]
    rw [since_append s _ _ ht]
    refine ⟨rfl, rfl, rfl, ?_, ?_, ?_, ?_, ?_⟩
    · simp [CanReceiverLoopBody, herr, can_async_read, State.emit, CanMessageBuffer.Free,
        debugPrintf]
    · simp [CanReceiverLoopBody, herr, can_async_read, State.emit, CanMessageBuffer.Free,
        debugPrintf]
    · intro a
      rw [hh]
      by_cases ha : a = buf
      · subst ha; simp
      · simp [Function.update, ha]
    · intro a ha
      rw [hh]
      simp [Function.update, ha]
    · simp [CanReceiverLoopBody, herr, can_async_read, State.emit, CanMessageBuffer.Free,
        debugPrintf]
  · intro hok
    have hrun : CanReceiverLoopBody x (some buf) rd clocks s
        = ProcessReceivedMessage x clocks buf
            (storeReceived x rd buf (can_async_read rd buf s)) := by
      simp [CanReceiverLoopBody, hok]
    have hin : (storeReceived x rd buf (can_async_read rd buf s)).trace
        = s.trace ++ [Event.can_async_read buf] := by
      simp [storeReceived, can_async_read, State.emit]
    refine ⟨hrun, ?_, ?_, ?_, ?_⟩
    · simp [storeReceived]
    · simp [storeReceived, can_async_read]
    · rw [since_append s _ _ hin]; rfl
    · obtain ⟨es, hes, hd⟩ := ProcessReceivedMessage_trace x clocks buf
        (storeReceived x rd buf (can_async_read rd buf s))
      have ht : (CanReceiverLoopBody x (some buf) rd clocks s).trace
          = s.trace ++ (Event.can_async_read buf :: Event.ProcessReceivedMessage buf :: es) := by
        rw [hrun, hes, hin]; simp
      rw [since_append s _ _ ht]
      simp [dispatches, hd]

/-! ## The properties at sample inputs -/

/-- The offset arithmetic at a sample input: the clock reads 5 when the
time-sync frame of buffer
1, sent at 4000000000, is processed; the movement frame of buffer 2, to be
executed at 4294967000, is processed next and becomes the head of the empty
movement queue. -/
theorem time_sync_offset_added_to_movement_example :
    (((ProcessReceivedMessage sampleExternals 5 1 sampleFramesBoard).localTimeOffset : Nat) : Int)
        = (((5 : Nat) : Int) - ((4000000000 : Nat) : Int)) % 4294967296
    ∧ ((((ProcessReceivedMessage sampleExternals 77 2
          (ProcessReceivedMessage sampleExternals 5 1 sampleFramesBoard)).heap 2).msg.move.whenToExecute
          : Nat) : Int)
        = (((4294967000 : Nat) : Int) + (((5 : Nat) : Int) - ((4000000000 : Nat) : Int)))
            % 4294967296
    ∧ (ProcessReceivedMessage sampleExternals 77 2
          (ProcessReceivedMessage sampleExternals 5 1 sampleFramesBoard)).PendingMoves.pendingMessages
        = some 2 :=
  have h := time_sync_offset_added_to_movement sampleExternals sampleFramesBoard
    (ProcessReceivedMessage sampleExternals 5 1 sampleFramesBoard) 1 2 5 4000000000 4294967000 77
    (by decide) (by decide) (by decide) rfl (by decide) (by decide)
  ⟨h.1, h.2.1, (h.2.2.1 (by decide)).1⟩

/-- C5 at a sample input: buffer 5 holds a response of type 9 addressed to
board 7. -/
theorem C5_unwanted_frame_freed_once_witness :
    frees (since sampleFramesBoard (ProcessReceivedMessage sampleExternals 0 5 sampleFramesBoard))
        = [5]
    ∧ (ProcessReceivedMessage sampleExternals 0 5 sampleFramesBoard).PendingCommands
        = sampleFramesBoard.PendingCommands :=
  have h := C5_unwanted_frame_freed_once sampleExternals 0 5 sampleFramesBoard
    (by decide) (by decide) (by decide)
  ⟨h.1, h.2.1⟩

/-- C7 at a sample input: buffer 4 holds a startup frame (type 3). -/
theorem C7_unsupported_type_reported_and_freed_witness :
    diagnostics (since sampleFramesBoard
        (ProcessReceivedMessage sampleExternals 0 4 sampleFramesBoard))
      = [("Unsupported CAN message type %u\n",
          ((sampleExternals.MsgType (sampleFramesBoard.heap 4).id : Nat) : Int))]
    ∧ frees (since sampleFramesBoard
        (ProcessReceivedMessage sampleExternals 0 4 sampleFramesBoard)) = [4] :=
  have h := C7_unsupported_type_reported_and_freed sampleExternals 0 4 sampleFramesBoard
    (by decide) (by decide)
  ⟨h.1, h.2.1⟩

/-- C10 at two sample inputs: a read into buffer 1 that fails with code -21,
and a read into buffer 1 that succeeds. -/
theorem C10_read_result_selects_free_or_dispatch_witness :
    (frees (since sampleBoard
        (CanReceiverLoopBody sampleExternals (some 1) sampleFailedRead 0 sampleBoard)) = [1]
      ∧ diagnostics (since sampleBoard
          (CanReceiverLoopBody sampleExternals (some 1) sampleFailedRead 0 sampleBoard))
        = [("CAN read err %d\n", sampleFailedRead.rslt)]
      ∧ dispatches (since sampleBoard
          (CanReceiverLoopBody sampleExternals (some 1) sampleFailedRead 0 sampleBoard)) = [])
    ∧ dispatches (since sampleBoard
        (CanReceiverLoopBody sampleExternals (some 1) sampleCommandRead 0 sampleBoard)) = [1] :=
  have herr := (C10_read_result_selects_free_or_dispatch sampleExternals sampleFailedRead 0 1
    sampleBoard).1 (by decide)
  have hok := (C10_read_result_selects_free_or_dispatch sampleExternals sampleCommandRead 0 1
    sampleBoard).2 (by decide)
  ⟨⟨herr.1, herr.2.1, herr.2.2.1⟩, hok.2.2.2.2⟩

/-! ## Fetching movements, time-sync frames, and the transmit callback -/

/-- C11: with a buffer at the head of the movement queue, `GetCanMove`
returns true, hands out the movement payload of that buffer, moves the head
to the buffer's `next`, and makes exactly one call, the `Free` of that
buffer; with an empty movement queue it returns false, hands back the output
message it was given, and makes no call. In both cases the command queue and
the buffer memory stay as they were. -/
theorem C11_GetCanMove_pops_copies_frees (msg : CanMessageMovement) (s : State) :
    (∀ buf, s.PendingMoves.pendingMessages = some buf →
      (GetCanMove msg s).1 = true
      ∧ (GetCanMove msg s).2.1 = (s.heap buf).msg.move
      ∧ (GetCanMove msg s).2.2.PendingMoves.pendingMessages = (s.heap buf).next
      ∧ since s (GetCanMove msg s).2.2 = [Event.Free buf]
      ∧ frees (since s (GetCanMove msg s).2.2) = [buf]
      ∧ (GetCanMove msg s).2.2.PendingCommands = s.PendingCommands
      ∧ (GetCanMove msg s).2.2.heap = s.heap)
    ∧ (s.PendingMoves.pendingMessages = none →
      (GetCanMove msg s).1 = false
      ∧ (GetCanMove msg s).2.1 = msg
      ∧ since s (GetCanMove msg s).2.2 = []
      ∧ frees (since s (GetCanMove msg s).2.2) = []
      ∧ (GetCanMove msg s).2.2.PendingMoves = s.PendingMoves
      ∧ (GetCanMove msg s).2.2.PendingCommands = s.PendingCommands
      ∧ (GetCanMove msg s).2.2.heap = s.heap) := by
  constructor
  · intro buf hp
    have ht : (GetCanMove msg s).2.2.trace = s.trace ++ [Event.Free buf] := by
      simp [GetCanMove, CanMessageQueue.GetMessage, hp, CanMessageBuffer.Free, State.emit]
    rw [since_append s _ _ ht]
    refine ⟨?_, ?_, ?_, rfl, rfl, ?_, ?_⟩ <;>
      simp [GetCanMove, CanMessageQueue.GetMessage, hp, CanMessageBuffer.Free, State.emit]
  · intro hp
    have ht : (GetCanMove msg s).2.2.trace = s.trace ++ [] := by
      simp [GetCanMove, CanMessageQueue.GetMessage, hp]
    rw [since_append s _ _ ht]
    refine ⟨?_, ?_, rfl, rfl, ?_, ?_, ?_⟩ <;>
      simp [GetCanMove, CanMessageQueue.GetMessage, hp]

/-- C11 at two sample inputs: the board with the movement frame of buffer 2
queued, and the board with an empty movement queue. -/
theorem C11_GetCanMove_pops_copies_frees_witness :
    ((GetCanMove ⟨0, []⟩ queuedMoveBoard).1 = true
      ∧ (GetCanMove ⟨0, []⟩ queuedMoveBoard).2.1 = (queuedMoveBoard.heap 2).msg.move
      ∧ frees (since queuedMoveBoard (GetCanMove ⟨0, []⟩ queuedMoveBoard).2.2) = [2])
    ∧ ((GetCanMove ⟨7, [1]⟩ sampleFramesBoard).1 = false
      ∧ (GetCanMove ⟨7, [1]⟩ sampleFramesBoard).2.1 = ⟨7, [1]⟩
      ∧ frees (since sampleFramesBoard (GetCanMove ⟨7, [1]⟩ sampleFramesBoard).2.2) = []) :=
  have h1 := (C11_GetCanMove_pops_copies_frees ⟨0, []⟩ queuedMoveBoard).1 2 (by decide)
  have h2 := (C11_GetCanMove_pops_copies_frees ⟨7, [1]⟩ sampleFramesBoard).2 (by decide)
  ⟨⟨h1.1, h1.2.1, h1.2.2.2.2.1⟩, ⟨h2.1, h2.2.1, h2.2.2.2.1⟩⟩


/-- C13: processing a time-sync frame leaves the buffer memory, and with it
the `whenToExecute` of every buffer, and both queue objects as they were, so
the buffers reached from either queue head are the same in the same order;
its calls are the entry into `ProcessReceivedMessage` and one `Free` of the
time-sync buffer; only the clock offset is assigned. -/
theorem C13_time_sync_leaves_queues (x : Externals) (clocks buf : Nat) (s : State)
    (hsync : x.MsgType (s.heap buf).id = x.timeSync) :
    (ProcessReceivedMessage x clocks buf s).heap = s.heap
    ∧ (ProcessReceivedMessage x clocks buf s).PendingMoves = s.PendingMoves
    ∧ (ProcessReceivedMessage x clocks buf s).PendingCommands = s.PendingCommands
    ∧ (∀ a, ((ProcessReceivedMessage x clocks buf s).heap a).msg.move.whenToExecute
        = (s.heap a).msg.move.whenToExecute)
    ∧ (∀ n, chain (ProcessReceivedMessage x clocks buf s).heap n
          (ProcessReceivedMessage x clocks buf s).PendingMoves.pendingMessages
        = chain s.heap n s.PendingMoves.pendingMessages)
    ∧ (∀ n, chain (ProcessReceivedMessage x clocks buf s).heap n
          (ProcessReceivedMessage x clocks buf s).PendingCommands.pendingMessages
        = chain s.heap n s.PendingCommands.pendingMessages)
    ∧ since s (ProcessReceivedMessage x clocks buf s)
        = [Event.ProcessReceivedMessage buf, Event.Free buf]
    ∧ frees (since s (ProcessReceivedMessage x clocks buf s)) = [buf]
    ∧ (ProcessReceivedMessage x clocks buf s).localTimeOffset
        = sub32 clocks (s.heap buf).msg.sync.timeSent
    ∧ (ProcessReceivedMessage x clocks buf s).boardAddress = s.boardAddress
    ∧ (ProcessReceivedMessage x clocks buf s).sendingTaskHandle = s.sendingTaskHandle := by
  have hh : (ProcessReceivedMessage x clocks buf s).heap = s.heap := by
    simp [ProcessReceivedMessage, State.emit, hsync, CanMessageBuffer.Free,
      StepTimer.SetLocalTimeOffset]
  have hm : (ProcessReceivedMessage x clocks buf s).PendingMoves = s.PendingMoves := by
    simp [ProcessReceivedMessage, State.emit, hsync, CanMessageBuffer.Free,
      StepTimer.SetLocalTimeOffset]
  have hc : (ProcessReceivedMessage x clocks buf s).PendingCommands = s.PendingCommands := by
    simp [ProcessReceivedMessage, State.emit, hsync, CanMessageBuffer.Free,
      StepTimer.SetLocalTimeOffset]
  have ht : (ProcessReceivedMessage x clocks buf s).trace
      = s.trace ++ [Event.ProcessReceivedMessage buf, Event.Free buf] := by
    simp [ProcessReceivedMessage, State.emit, hsync, CanMessageBuffer.Free,
      StepTimer.SetLocalTimeOffset]
  have hlt : sub32 clocks (s.heap buf).msg.sync.timeSent % two32
      = sub32 clocks (s.heap buf).msg.sync.timeSent :=
    Nat.mod_eq_of_lt (by unfold sub32; exact Nat.mod_lt _ (by unfold two32; omega))
  rw [since_append s _ _ ht, hh, hm, hc]
  refine ⟨rfl, rfl, rfl, fun _ => rfl, fun _ => rfl, fun _ => rfl, rfl, rfl, ?_, ?_, ?_⟩ <;>
    simp [ProcessReceivedMessage, State.emit, hsync, CanMessageBuffer.Free,
      StepTimer.SetLocalTimeOffset, hlt]

/-- C13 at a sample input: the movement frame of buffer 2 is queued with its
time stamp 4294967000 when the time-sync frame of buffer 1 is processed at
clock 5. -/
theorem C13_time_sync_leaves_queues_witness :
    chain (ProcessReceivedMessage sampleExternals 5 1 queuedMoveBoard).heap 40
        (ProcessReceivedMessage sampleExternals 5 1 queuedMoveBoard).PendingMoves.pendingMessages
      = chain queuedMoveBoard.heap 40 queuedMoveBoard.PendingMoves.pendingMessages
    ∧ ((ProcessReceivedMessage sampleExternals 5 1 queuedMoveBoard).heap 2).msg.move.whenToExecute
      = (queuedMoveBoard.heap 2).msg.move.whenToExecute
    ∧ frees (since queuedMoveBoard (ProcessReceivedMessage sampleExternals 5 1 queuedMoveBoard))
      = [1] :=
  have h := C13_time_sync_leaves_queues sampleExternals 5 1 queuedMoveBoard (by decide)
  ⟨h.2.2.2.2.1 40, h.2.2.2.1 2, h.2.2.2.2.2.2.2.1⟩


/-- The notifications of a trace made of two parts. -/
theorem notifications_append (es fs : List Event) :
    notifications (es ++ fs) = notifications es ++ notifications fs := by
  induction es with
  | nil => rfl
  | cons e es ih => cases e <;> simp [notifications, ih]

/-- `ProcessReceivedMessage` neither assigns `sendingTaskHandle` nor notifies
a task. -/
theorem ProcessReceivedMessage_no_notification (x : Externals) (clocks buf : Nat) (s : State) :
    (ProcessReceivedMessage x clocks buf s).sendingTaskHandle = s.sendingTaskHandle
    ∧ notifications (ProcessReceivedMessage x clocks buf s).trace = notifications s.trace := by
  unfold ProcessReceivedMessage
  simp only []
  split_ifs <;>
    simp [State.emit, CanMessageBuffer.Free, StepTimer.SetLocalTimeOffset, debugPrintf,
      notifications_append, notifications]

/-- A step from a state with a null `sendingTaskHandle` and no notification
in its trace leads to such a state. -/
theorem Call.run_no_notification (x : Externals) (s : State) (c : Call)
    (hs : s.sendingTaskHandle = none) (hn : notifications s.trace = []) :
    (c.run x s).sendingTaskHandle = none ∧ notifications (c.run x s).trace = [] := by
  cases c with
  | init a => exact ⟨hs, hn⟩
  | send rslt buf =>
    simp [Call.run, Send, State.emit, CanMessageBuffer.Free, notifications_append,
      notifications, hs, hn]
  | receive alloc rd clocks =>
    cases alloc with
    | none => exact ⟨hs, hn⟩
    | some buf =>
      by_cases hr : rd.rslt = x.ERR_NONE
      · have h := ProcessReceivedMessage_no_notification x clocks buf
          (storeReceived x rd buf (can_async_read rd buf s))
        simp only [Call.run, CanReceiverLoopBody, hr, if_true]
        rw [h.1, h.2]
        simp [storeReceived, can_async_read, State.emit, notifications_append, notifications,
          hs, hn]
      · simp [Call.run, CanReceiverLoopBody, hr, can_async_read, State.emit,
          CanMessageBuffer.Free, debugPrintf, notifications_append, notifications, hs, hn]
  | getCanMove msg =>
    cases hp : s.PendingMoves.pendingMessages with
    | none => simp [Call.run, GetCanMove, CanMessageQueue.GetMessage, hp, hs, hn]
    | some b =>
      simp [Call.run, GetCanMove, CanMessageQueue.GetMessage, hp, CanMessageBuffer.Free,
        State.emit, notifications_append, notifications, hs, hn]
  | getCanCommand => exact ⟨hs, hn⟩
  | txCallback => simp [Call.run, CAN_0_tx_callback, hs, hn]

/-- The same over a list of steps. -/
theorem runFrom_no_notification (x : Externals) (calls : List Call) (s : State)
    (hs : s.sendingTaskHandle = none) (hn : notifications s.trace = []) :
    (runFrom x s calls).sendingTaskHandle = none
      ∧ notifications (runFrom x s calls).trace = [] := by
  induction calls generalizing s with
  | nil => exact ⟨hs, hn⟩
  | cons c cs ih =>
    have h := Call.run_no_notification x s c hs hn
    exact ih (c.run x s) h.1 h.2

/-- C14: after any sequence of `Init`, `Send`, receive-loop passes,
`GetCanMove`, `GetCanCommand` and transmit-complete callbacks from the state
the program starts in, `sendingTaskHandle` is null and no task notification
has been issued. The callback itself issues one notification, to the task of
the handle, exactly when the handle is not null, and always leaves the handle
null. -/
theorem C14_sendingTaskHandle_stays_null (x : Externals) (h : Heap) (offset : Nat)
    (calls : List Call) :
    (runFrom x (State.initial h offset) calls).sendingTaskHandle = none
    ∧ notifications (runFrom x (State.initial h offset) calls).trace = []
    ∧ notifications (since (runFrom x (State.initial h offset) calls)
        (CAN_0_tx_callback (runFrom x (State.initial h offset) calls))) = []
    ∧ (∀ s : State, (CAN_0_tx_callback s).sendingTaskHandle = none)
    ∧ (∀ (s : State) (task : Nat),
        notifications (since s (CAN_0_tx_callback { s with sendingTaskHandle := some task }))
          = [task])
    ∧ (∀ s : State,
        notifications (since s (CAN_0_tx_callback { s with sendingTaskHandle := none })) = []) := by
  have hr := runFrom_no_notification x calls (State.initial h offset) rfl rfl
  refine ⟨hr.1, hr.2, ?_, ?_, ?_, ?_⟩
  · simp [CAN_0_tx_callback, hr.1, since]
    rfl
  · intro s
    cases hs : s.sendingTaskHandle <;> simp [CAN_0_tx_callback, hs]
  · intro s task
    simp [CAN_0_tx_callback, State.emit, since, notifications]
  · intro s
    simp [CAN_0_tx_callback, since]
    rfl


/-! ## The identifier codec: round trip -/

/-- A word made of a low part, a field value and a high part has that value
in the field. -/
theorem field_of_parts (lo v hi s b : Nat) (hlo : lo < 2 ^ s) (hv : v < 2 ^ b) :
    field (lo + v * 2 ^ s + hi * 2 ^ (s + b)) s b = v := by
  have hpos : 0 < 2 ^ s := Nat.pos_pow_of_pos _ (by norm_num)
  have e : lo + v * 2 ^ s + hi * 2 ^ (s + b) = lo + 2 ^ s * (v + hi * 2 ^ b) := by
    rw [pow_add]; ring
  unfold field
  rw [e, Nat.add_mul_div_left _ _ hpos, Nat.div_eq_of_lt hlo, Nat.zero_add,
    Nat.add_mul_mod_self_right, Nat.mod_eq_of_lt hv]

/-- A field value placed wholly below bit `t` is less than `2 ^ t`. -/
theorem part_below (v s b t : Nat) (hv : v < 2 ^ b) (h : s + b ≤ t) : v * 2 ^ s < 2 ^ t := by
  calc v * 2 ^ s < 2 ^ b * 2 ^ s :=
        Nat.mul_lt_mul_of_pos_right hv (Nat.pos_pow_of_pos _ (by norm_num))
    _ = 2 ^ (s + b) := by rw [pow_add]; ring
    _ ≤ 2 ^ t := Nat.pow_le_pow_right (by norm_num) h

/-- A field value placed at or above bit `t` is a multiple of `2 ^ t`. -/
theorem part_above (v s t : Nat) (h : t ≤ s) : v * 2 ^ s = (v * 2 ^ (s - t)) * 2 ^ t := by
  rw [Nat.mul_assoc, ← pow_add, Nat.sub_add_cancel h]

/-- Two field values placed one above the other, both below bit `t`, add up
to less than `2 ^ t`. -/
theorem parts_below (vy sy wy vz sz wz t : Nat) (hy : vy < 2 ^ wy) (hz : vz < 2 ^ wz)
    (hyz : sy + wy ≤ sz) (hzt : sz + wz ≤ t) : vy * 2 ^ sy + vz * 2 ^ sz < 2 ^ t := by
  have h1 : vy * 2 ^ sy < 2 ^ sz := part_below vy sy wy sz hy hyz
  have h2 : (vz + 1) * 2 ^ sz ≤ 2 ^ wz * 2 ^ sz := Nat.mul_le_mul_right _ hz
  have h3 : 2 ^ wz * 2 ^ sz = 2 ^ (sz + wz) := by rw [pow_add]; ring
  have h4 : 2 ^ (sz + wz) ≤ 2 ^ t := Nat.pow_le_pow_right (by norm_num) hzt
  have h5 : (vz + 1) * 2 ^ sz = vz * 2 ^ sz + 2 ^ sz := by ring
  omega

/-- Of three values packed into fields that do not overlap, the first is read
back from its field. -/
theorem field_of_packed (v s w vy sy wy vz sz wz : Nat)
    (hv : v < 2 ^ w) (hy : vy < 2 ^ wy) (hz : vz < 2 ^ wz)
    (dY : sy + wy ≤ s ∨ s + w ≤ sy) (dZ : sz + wz ≤ s ∨ s + w ≤ sz)
    (dYZ : sy + wy ≤ sz ∨ sz + wz ≤ sy) :
    field (v * 2 ^ s + vy * 2 ^ sy + vz * 2 ^ sz) s w = v := by
  rcases dY with dY | dY <;> rcases dZ with dZ | dZ
  · have hlo : vy * 2 ^ sy + vz * 2 ^ sz < 2 ^ s := by
      rcases dYZ with d | d
      · exact parts_below vy sy wy vz sz wz s hy hz d dZ
      · have := parts_below vz sz wz vy sy wy s hz hy d dY
        omega
    have e : v * 2 ^ s + vy * 2 ^ sy + vz * 2 ^ sz
        = (vy * 2 ^ sy + vz * 2 ^ sz) + v * 2 ^ s + 0 * 2 ^ (s + w) := by ring
    rw [e]
    exact field_of_parts _ v 0 s w hlo hv
  · have hlo := part_below vy sy wy s hy dY
    have e : v * 2 ^ s + vy * 2 ^ sy + vz * 2 ^ sz
        = vy * 2 ^ sy + v * 2 ^ s + (vz * 2 ^ (sz - (s + w))) * 2 ^ (s + w) := by
      rw [← part_above vz sz (s + w) dZ]; ring
    rw [e]
    exact field_of_parts _ v _ s w hlo hv
  · have hlo := part_below vz sz wz s hz dZ
    have e : v * 2 ^ s + vy * 2 ^ sy + vz * 2 ^ sz
        = vz * 2 ^ sz + v * 2 ^ s + (vy * 2 ^ (sy - (s + w))) * 2 ^ (s + w) := by
      rw [← part_above vy sy (s + w) dY]; ring
    rw [e]
    exact field_of_parts _ v _ s w hlo hv
  · have e : v * 2 ^ s + vy * 2 ^ sy + vz * 2 ^ sz
        = 0 + v * 2 ^ s
          + (vy * 2 ^ (sy - (s + w)) + vz * 2 ^ (sz - (s + w))) * 2 ^ (s + w) := by
      rw [Nat.add_mul, ← part_above vy sy (s + w) dY, ← part_above vz sz (s + w) dZ]; ring
    rw [e]
    exact field_of_parts 0 v _ s w (Nat.pos_pow_of_pos _ (by norm_num)) hv

/-- Decoding an encoded triple whose values fit their fields gives the
triple. -/
theorem CanIdLayout.decode_encode (l : CanIdLayout) (dst type flags : Nat) (hl : l.Valid)
    (hd : dst < 2 ^ l.dstBits) (ht : type < 2 ^ l.typeBits) (hf : flags < 2 ^ l.flagsBits) :
    l.decode (l.encode dst type flags) = (dst, type, flags) := by
  obtain ⟨dDT, dDF, dTF⟩ := hl
  have h1 := field_of_packed dst l.DstAddressShift l.dstBits type l.MsgTypeShift l.typeBits
    flags l.flagsShift l.flagsBits hd ht hf dDT.symm dDF.symm dTF
  have h2 := field_of_packed type l.MsgTypeShift l.typeBits dst l.DstAddressShift l.dstBits
    flags l.flagsShift l.flagsBits ht hd hf dDT dTF.symm dDF
  have h3 := field_of_packed flags l.flagsShift l.flagsBits dst l.DstAddressShift l.dstBits
    type l.MsgTypeShift l.typeBits hf hd ht dDF dTF dDT
  have e2 : dst * 2 ^ l.DstAddressShift + type * 2 ^ l.MsgTypeShift + flags * 2 ^ l.flagsShift
      = type * 2 ^ l.MsgTypeShift + dst * 2 ^ l.DstAddressShift + flags * 2 ^ l.flagsShift := by
    ring
  have e3 : dst * 2 ^ l.DstAddressShift + type * 2 ^ l.MsgTypeShift + flags * 2 ^ l.flagsShift
      = flags * 2 ^ l.flagsShift + dst * 2 ^ l.DstAddressShift + type * 2 ^ l.MsgTypeShift := by
    ring
  unfold CanIdLayout.decode CanIdLayout.encode
  rw [h1, e2, h2, ← e2, e3, h3]


/-- C12: for a layout whose fields do not overlap and a destination, message
type and flags that fit their fields, decoding the encoded identifier gives
the triple back. When a buffer carrying the encoded identifier is sent, `Send`
hands the hardware that identifier through `GetWholeId`; when a read delivers
it and the receive loop stores it through `SetReceivedId`, the stored
identifier has the destination, the message type and the request flag of the
triple, the same as the identifier of the sender. -/
theorem C12_identifier_round_trip (l : CanIdLayout) (x : Externals) (dst type flags : Nat)
    (sender receiver : State) (bufS bufR : Nat) (rslt : Int) (rd : CanRead)
    (hl : l.Valid) (hd : dst < 2 ^ l.dstBits) (ht : type < 2 ^ l.typeBits)
    (hf : flags < 2 ^ l.flagsBits)
    (hid : (sender.heap bufS).id = ⟨l.encode dst type flags⟩)
    (hrd : rd.id = (l.externals x).GetWholeId (sender.heap bufS).id) :
    l.decode (l.encode dst type flags) = (dst, type, flags)
    ∧ (writes (since sender (Send (l.externals x) rslt bufS sender))).map (fun m => m.id)
        = [l.encode dst type flags]
    ∧ (l.externals x).Dst
        ((storeReceived (l.externals x) rd bufR (can_async_read rd bufR receiver)).heap bufR).id
        = dst
    ∧ (l.externals x).MsgType
        ((storeReceived (l.externals x) rd bufR (can_async_read rd bufR receiver)).heap bufR).id
        = type
    ∧ (l.externals x).IsRequest
        ((storeReceived (l.externals x) rd bufR (can_async_read rd bufR receiver)).heap bufR).id
        = l.isRequest flags
    ∧ (l.externals x).Dst (sender.heap bufS).id = dst
    ∧ (l.externals x).MsgType (sender.heap bufS).id = type
    ∧ (l.externals x).IsRequest (sender.heap bufS).id = l.isRequest flags := by
  have hde := CanIdLayout.decode_encode l dst type flags hl hd ht hf
  have hw : (Send (l.externals x) rslt bufS sender).trace = sender.trace ++
      [Event.can_async_write
          { id := l.encode dst type flags, type := x.CAN_TYPE_DATA,
            data := (sender.heap bufS).msg.raw, len := (sender.heap bufS).dataLength,
            fmt := x.CAN_FMT_EXTID },
       Event.Free bufS] := by
    simp [Send, State.emit, CanMessageBuffer.Free, CanIdLayout.externals, hid]
  have hstored :
      ((storeReceived (l.externals x) rd bufR (can_async_read rd bufR receiver)).heap bufR).id
        = ⟨l.encode dst type flags⟩ := by
    simp [storeReceived, CanIdLayout.externals, hrd, hid]
  rw [since_append sender _ _ hw, hstored, hid]
  refine ⟨hde, rfl, ?_, ?_, ?_, ?_, ?_, ?_⟩ <;> simp [CanIdLayout.externals, hde]

/-- C12 at a sample input: a response (flag 1) of type 9 to board 7, sent from
buffer 5 and received into buffer 3. -/
theorem C12_identifier_round_trip_witness :
    sampleLayout.decode (sampleLayout.encode 7 9 1) = (7, 9, 1)
    ∧ (sampleLayout.externals sampleExternals).Dst
        ((storeReceived (sampleLayout.externals sampleExternals) sampleResponseRead 3
          (can_async_read sampleResponseRead 3 sampleBoard)).heap 3).id = 7
    ∧ (sampleLayout.externals sampleExternals).MsgType
        ((storeReceived (sampleLayout.externals sampleExternals) sampleResponseRead 3
          (can_async_read sampleResponseRead 3 sampleBoard)).heap 3).id = 9
    ∧ (sampleLayout.externals sampleExternals).IsRequest
        ((storeReceived (sampleLayout.externals sampleExternals) sampleResponseRead 3
          (can_async_read sampleResponseRead 3 sampleBoard)).heap 3).id
        = sampleLayout.isRequest 1 :=
  have h := C12_identifier_round_trip sampleLayout sampleExternals 7 9 1 sampleFramesBoard
    sampleBoard 5 3 0 sampleResponseRead (by decide) (by decide) (by decide) (by decide)
    (by decide) (by decide)
  ⟨h.1, h.2.2.1, h.2.2.2.1, h.2.2.2.2.1⟩


/-! ## `AnalogOut::ConvertRange` -/

/-- A number below `2 ^ k` has at most `k` binary digits. -/
theorem bitLength_le (fuel n k : Nat) (h : n < 2 ^ k) : bitLength fuel n ≤ k := by
  induction fuel generalizing n k with
  | zero => simp [bitLength]
  | succ fuel ih =>
    unfold bitLength
    split_ifs with h0
    · exact Nat.zero_le _
    · cases k with
      | zero => omega
      | succ k =>
        have : n / 2 < 2 ^ k := by
          rw [pow_succ] at h
          omega
        have := ih (n / 2) k this
        omega

/-- An integer below `2 ^ 24` is a `float`. -/
theorem Binary32.round_exact (n : Nat) (h : n < 2 ^ 24) :
    Binary32.round (n : Int) 0 = { mantissa := n, exponent := 0 } := by
  have hb := bitLength_le (n + 1) n 24 h
  unfold Binary32.round
  simp only [Int.natAbs_ofNat]
  rw [if_pos]
  omega

/-- At `f = 1.0` the result of `ConvertRange` is `top + 1`, for every `top`
below `2 ^ 24 - 1`. -/
theorem ConvertRange_one (top : Nat) (h : top + 1 < 2 ^ 24) :
    ConvertRange Binary32.one top = top + 1 := by
  have h32 : add32 top 1 = top + 1 := by
    unfold add32 two32
    omega
  have hm : (top + 1) % two32 = top + 1 := by
    unfold two32
    omega
  unfold ConvertRange Binary32.ofUInt32
  rw [h32, hm, Binary32.round_exact (top + 1) h]
  unfold Binary32.mul Binary32.one
  simp only [one_mul, add_zero]
  rw [Binary32.round_exact (top + 1) h]
  unfold lrintf toUInt32
  simp only [le_refl, if_true, Int.toNat_zero, pow_zero, mul_one]
  omega

/-- C15, evaluated where it fails: for `f = 1.0` and `top = 65535`, both
inside the documented precondition, `ConvertRange` returns 65536, which is
not at most `top`; so it does for the largest `float` below 1.0. -/
theorem C15_ConvertRange_exceeds_top :
    ConvertRange Binary32.one 65535 = 65536
    ∧ ¬ (ConvertRange Binary32.one 65535 ≤ 65535)
    ∧ ConvertRange { mantissa := 16777215, exponent := -24 } 65535 = 65536 := by
  decide


/-! ## `AnalogOut::ChoosePrescaler`: the index and `top` -/

/-- C16, evaluated where it fails: with a peripheral clock of 48000000,
`freq = 366` and a 16-bit counter, the entry at index 0 does not pass the
test (`48000000 >> 16` is 732), the entry at index 1 does (`48000000 >> 17`
is 366), so `ChoosePrescaler` returns 1 and stores
`(48000000 >> 1) / 366 - 1 = 65572` in `top`, which does not fit the 16-bit
counter. -/
theorem C16_ChoosePrescaler_top_exceeds_counter :
    ChoosePrescaler 48000000 366 16 = some (1, 65572)
    ∧ shiftRight32 48000000 (PrescalerShifts.getD 0 0 + 16) = some 732
    ∧ shiftRight32 48000000 (PrescalerShifts.getD 1 0 + 16) = some 366
    ∧ (48000000 >>> PrescalerShifts.getD 1 0) / 366 - 1 = 65572
    ∧ ¬ (65572 ≤ 2 ^ 16 - 1) := by
  decide

/-! ## A movement frame dispatched after a time-sync frame -/

/-- With an empty movement queue every `GetCanMove` call returns false and
leaves the output message as it was given. -/
theorem getMoves_of_empty (msg : CanMessageMovement) (n : Nat) (s : State)
    (h : s.PendingMoves.pendingMessages = none) :
    (getMoves msg n s).1 = List.replicate n (false, msg) := by
  induction n generalizing s with
  | zero => rfl
  | succ n ih =>
    have h1 : (GetCanMove msg s).1 = false := by
      simp [GetCanMove, CanMessageQueue.GetMessage, h]
    have h2 : (GetCanMove msg s).2.1 = msg := by
      simp [GetCanMove, CanMessageQueue.GetMessage, h]
    have h3 : (GetCanMove msg s).2.2.PendingMoves.pendingMessages = none := by
      simp [GetCanMove, CanMessageQueue.GetMessage, h]
    simp [getMoves, h1, h2, ih _ h3, List.replicate_succ]

/-- C3, evaluated where it fails: board 7 receives two movement frames into
buffers 2 and 3, the consumer takes the first with `GetCanMove` (which frees
buffer 2), a time-sync frame with `timeSent = 4000000000` is processed while
the clock reads 5, and a movement frame with `whenToExecute = 4294967000` is
received into buffer 6 next. The offset is `5 - 4000000000` modulo 2^32 and
buffer 6 carries `4294967000 + (5 - 4000000000)` modulo 2^32, but buffer 6 is
not appended to the movement queue: `AddMessage` stores it in `next` of the
freed buffer 2, the only buffer reached from the head is 3, and `GetCanMove`
hands out the frame of buffer 3 once and reports an empty queue ever
after. -/
theorem C3_adjusted_movement_not_queued :
    (GetCanMove ⟨0, []⟩ twoMovesState).1 = true
    ∧ frees (GetCanMove ⟨0, []⟩ twoMovesState).2.2.trace = [2]
    ∧ ((syncedState.localTimeOffset : Nat) : Int)
        = (((5 : Nat) : Int) - ((4000000000 : Nat) : Int)) % 4294967296
    ∧ sampleExternals.MsgType (thirdMoveState.heap 6).id = sampleExternals.movement
    ∧ dispatches (since syncedState thirdMoveState) = [6]
    ∧ (((thirdMoveState.heap 6).msg.move.whenToExecute : Nat) : Int)
        = (((4294967000 : Nat) : Int) + (((5 : Nat) : Int) - ((4000000000 : Nat) : Int)))
            % 4294967296
    ∧ (thirdMoveState.heap 2).next = some 6
    ∧ chain thirdMoveState.heap 40 thirdMoveState.PendingMoves.pendingMessages = [3]
    ∧ frees (since syncedState thirdMoveState) = []
    ∧ ∀ (msg : CanMessageMovement) (n : Nat),
        (getMoves msg (n + 1) thirdMoveState).1
          = (true, (thirdMoveState.heap 3).msg.move) :: List.replicate n (false, msg) := by
  refine ⟨by decide, by decide, by decide, by decide, by decide, by decide, by decide,
    by decide, by decide, ?_⟩
  intro msg n
  have hp : thirdMoveState.PendingMoves.pendingMessages = some 3 := by decide
  have h1 : (GetCanMove msg thirdMoveState).1 = true := by
    simp [GetCanMove, CanMessageQueue.GetMessage, hp]
  have h2 : (GetCanMove msg thirdMoveState).2.1 = (thirdMoveState.heap 3).msg.move := by
    simp [GetCanMove, CanMessageQueue.GetMessage, hp]
  have hn : (thirdMoveState.heap 3).next = none := by decide
  have h3 : (GetCanMove msg thirdMoveState).2.2.PendingMoves.pendingMessages = none := by
    simp [GetCanMove, CanMessageQueue.GetMessage, hp, hn, CanMessageBuffer.Free, State.emit]
  simp [getMoves, h1, h2, getMoves_of_empty msg n _ h3]

end Duet3Expansion
